import Mathlib

/-!
Verification of the Embedding & Vector Index Subsystem
(`vector-embedding/app/{cache,embeddings,vector_search}.py`).

Shallow embedding conventions:
* Python floats are modelled as exact rationals (`ℚ`); the numeric claims
  checked here are about selection, ordering and bookkeeping logic, not
  floating-point rounding.
* Library calls that are outside this repository are modelled by their
  documented contracts and kept as explicit parameters where their internal
  behaviour is irrelevant to a claim:
  - `faiss.normalize_L2` is an arbitrary parameter `normalize : Vec → Vec`
    (no claim depends on the numeric content of normalization);
  - `faiss.IndexFlatIP.search` is modelled exactly per its contract for a
    flat inner-product index: score every stored vector by inner product
    with the query, sort descending, return the first `k`;
  - `sklearn.cluster.KMeans.fit_predict` is a parameter producing one label
    per sample;
  - `hashlib.md5` is an arbitrary parameter `md5 : String → String`
    (every theorem holds for an arbitrary digest function);
  - the OpenAI client and the SentenceTransformer model are parameters of
    the service environment, as deterministic functions of their inputs
    (the remote client additionally of a retry-attempt number, so that
    exhausted retries are observable).
* Python exceptions are `Except String`; the string is the formatted message.
* A Python `dict` used as metadata is modelled as an association list.
-/

/-- An embedding vector: a list of (exact) reals. -/
abbrev Vec := List ℚ

/-- Model of an arbitrary Python metadata dict. -/
abbrev Metadata := List (String × String)

/-- Inner product of two vectors (`np.dot` / faiss `IndexFlatIP` scoring). -/
def dot (a b : Vec) : ℚ := (List.zipWith (· * ·) a b).sum

/-- Model of Python `str.startswith`. -/
def pyStartsWith (s p : String) : Bool := p.data.isPrefixOf s.data

/-! ## VectorSearchEngine (`app/vector_search.py`) -/

/-- The mutable state of `VectorSearchEngine`: the FAISS flat index is the
list of stored vectors (in insertion order), plus the parallel `texts` and
`metadata` arrays.  (`dimension` and `index_path` play no role in the claims
verified here.) -/
structure EngineState where
  index : List Vec
  texts : List String
  metadata : List Metadata
deriving DecidableEq

def emptyEngine : EngineState := ⟨[], [], []⟩

/-- All stored vectors scored against a query by inner product, each paired
with its position — what `IndexFlatIP` computes internally. -/
def ipScores (index : List Vec) (q : Vec) : List (ℚ × Nat) :=
  index.enum.map (fun p => (dot q p.2, p.1))

/-- "score `b` ≤ score `a`": descending-score comparison used to model the
ranking performed by FAISS search. -/
def scoreDescLe (a b : ℚ × Nat) : Bool := decide (b.1 ≤ a.1)

/-- Model of `faiss.IndexFlatIP.search(query, k)` for one query: the `k`
largest inner products, in descending order, with their indices.  For a flat
index with `k ≤ ntotal` no `-1` padding entries occur, which is the only
regime the engine uses (`k` is always `min`-clamped to `ntotal`). -/
def faissSearch (index : List Vec) (q : Vec) (k : Nat) : List (ℚ × Nat) :=
  ((ipScores index q).mergeSort scoreDescLe).take k

/-- One formatted search hit (`vector_search.py` result dict). -/
structure SearchResult where
  text : String
  score : ℚ
  index : Nat
  metadata : Metadata
deriving DecidableEq

/-- Formatting of one `(score, idx)` hit into a result dict.  The source
reads `self.texts[idx]` directly (valid under the parallel-array invariant)
and guards `self.metadata[idx]` with `idx < len(self.metadata)`. -/
def mkResult (st : EngineState) (p : ℚ × Nat) : SearchResult :=
  { text := st.texts.getD p.2 ""
    score := p.1
    index := p.2
    metadata := st.metadata.getD p.2 [] }

/-- The per-hit result formatting of `search`: skip a hit below the
threshold (when one is supplied), otherwise format it. -/
def searchFilter (st : EngineState) (threshold : Option ℚ) (p : ℚ × Nat) :
    Option SearchResult :=
  match threshold with
  | some t => if p.1 < t then none else some (mkResult st p)
  | none => some (mkResult st p)

/-- `VectorSearchEngine.search`. -/
def search (normalize : Vec → Vec) (st : EngineState) (queryEmbedding : Vec)
    (topK : Nat) (threshold : Option ℚ) : List SearchResult :=
  if st.index.length = 0 then []
  else
    let queryVector := normalize queryEmbedding
    let hits := faissSearch st.index queryVector (min topK st.index.length)
    hits.filterMap (searchFilter st threshold)

/-- `VectorSearchEngine.add_vectors`.  Mirrors the source exactly: the empty
check (`if not embeddings or not texts`) precedes the length check; the
Python truthiness of `if metadata:` means an empty metadata list is replaced
by per-text empty dicts. -/
def add_vectors (normalize : Vec → Vec) (st : EngineState) (embeddings : List Vec)
    (texts : List String) (metadata : Option (List Metadata)) :
    Except String EngineState :=
  if embeddings.isEmpty ∨ texts.isEmpty then .ok st
  else if embeddings.length ≠ texts.length then
    .error "Number of embeddings must match number of texts"
  else
    .ok { index := st.index ++ embeddings.map normalize
          texts := st.texts ++ texts
          metadata := st.metadata ++
            (match metadata with
             | some ms => if ms.isEmpty then texts.map (fun _ => ([] : Metadata)) else ms
             | none => texts.map (fun _ => ([] : Metadata))) }

/-- `VectorSearchEngine.get_similar_pairs`: each stored vector is
reconstructed, re-normalized, and searched against the index with
`k = min(10, ntotal)`; a hit is reported iff `idx > i` and
`score >= threshold`. -/
def get_similar_pairs (normalize : Vec → Vec) (st : EngineState) (threshold : ℚ) :
    List (Nat × Nat × ℚ) :=
  if st.index.length < 2 then []
  else
    (List.range st.index.length).flatMap (fun i =>
      let vector := normalize (st.index.getD i [])
      let hits := faissSearch st.index vector (min 10 st.index.length)
      hits.filterMap (fun p =>
        if i < p.2 ∧ threshold ≤ p.1 then some (i, p.2, p.1) else none))

/-- One item of a cluster in `cluster_vectors`' result. -/
structure ClusterItem where
  text : String
  index : Nat
  metadata : Metadata
deriving DecidableEq

/-- Result shape of `cluster_vectors`. -/
structure ClusterResult where
  clusters : List (Nat × List ClusterItem)
  centroids : List Vec
  nClusters : Nat

/-- Distinct labels in order of first occurrence — the iteration order of the
Python dict that `cluster_vectors` builds by insertion. -/
def insertionOrder : List Nat → List Nat
  | [] => []
  | l :: ls => l :: insertionOrder (ls.filter (· ≠ l))
termination_by ls => ls.length
decreasing_by
  simp only [List.length_cons]
  exact Nat.lt_succ_of_le (List.length_filter_le _ _)

/-- `VectorSearchEngine.cluster_vectors`.  `kmeansLabels` / `kmeansCentroids`
model `sklearn` `KMeans.fit_predict` / `cluster_centers_` (library code):
one label per sample, centroids per cluster.  `n_clusters` is min-clamped to
the record count before fitting. -/
def cluster_vectors (kmeansLabels : List Vec → Nat → List Nat)
    (kmeansCentroids : List Vec → Nat → List Vec)
    (st : EngineState) (nClusters : Nat) : ClusterResult :=
  if st.index.length = 0 then ⟨[], [], 0⟩
  else
    let vectors := st.index
    let k := min nClusters st.index.length
    let labels := kmeansLabels vectors k
    let ordered := insertionOrder labels
    { clusters := ordered.map (fun lab =>
        (lab, (labels.enum.filter (fun p => p.2 = lab)).map (fun p =>
          { text := st.texts.getD p.1 ""
            index := p.1
            metadata := st.metadata.getD p.1 [] })))
      centroids := kmeansCentroids vectors k
      nClusters := ordered.length }

/-- `VectorSearchEngine.clear_index`. -/
def clear_index (_st : EngineState) : EngineState := ⟨[], [], []⟩

/-- A recorded mutating call against the engine, for stating state-machine
invariants: `add_vectors` (an exception leaves the state unchanged, since the
source raises before mutating) or `clear_index`. -/
inductive EngineOp
  | add (embeddings : List Vec) (texts : List String) (metadata : Option (List Metadata))
  | clear

def execOp (normalize : Vec → Vec) (st : EngineState) : EngineOp → EngineState
  | .add e t m =>
    match add_vectors normalize st e t m with
    | .ok st' => st'
    | .error _ => st
  | .clear => clear_index st

/-- The caller discipline assumed by claim C9: metadata omitted, or of the
same length as the texts of its call. -/
def opValid : EngineOp → Prop
  | .add _ t m => m = none ∨ ∃ ms, m = some ms ∧ ms.length = t.length
  | .clear => True

/-- The parallel-array invariant of the engine. -/
def engineInv (st : EngineState) : Prop :=
  st.index.length = st.texts.length ∧ st.texts.length = st.metadata.length

/-! ## Helper lemmas about the FAISS search model -/

theorem mem_ipScores_elim {index : List Vec} {q : Vec} {p : ℚ × Nat}
    (h : p ∈ ipScores index q) :
    p.2 < index.length ∧ p.1 = dot q (index.getD p.2 []) := by
  simp only [ipScores, List.mem_map] at h
  obtain ⟨⟨i, v⟩, hmem, heq⟩ := h
  obtain ⟨hi, hv⟩ := List.mem_enum hmem
  cases heq
  exact ⟨hi, by rw [List.getD_eq_getElem _ _ hi, ← hv]⟩

theorem mem_ipScores_intro {index : List Vec} {q : Vec} {j : Nat}
    (hj : j < index.length) :
    (dot q (index.getD j []), j) ∈ ipScores index q := by
  simp only [ipScores, List.mem_map]
  refine ⟨(j, index[j]), ?_, ?_⟩
  · rw [List.mem_enum_iff_getElem?]
    simp [hj]
  · rw [List.getD_eq_getElem _ _ hj]

theorem ipScores_length (index : List Vec) (q : Vec) :
    (ipScores index q).length = index.length := by
  simp [ipScores]

theorem scoreDescLe_trans :
    ∀ a b c : ℚ × Nat, scoreDescLe a b = true → scoreDescLe b c = true →
      scoreDescLe a c = true := by
  intro a b c hab hbc
  simp only [scoreDescLe, decide_eq_true_eq] at *
  exact le_trans hbc hab

theorem scoreDescLe_total :
    ∀ a b : ℚ × Nat, (scoreDescLe a b || scoreDescLe b a) = true := by
  intro a b
  simp only [scoreDescLe, Bool.or_eq_true, decide_eq_true_eq]
  exact le_total b.1 a.1

theorem faissSearch_subset {index : List Vec} {q : Vec} {k : Nat} {p : ℚ × Nat}
    (h : p ∈ faissSearch index q k) : p ∈ ipScores index q := by
  have h1 : p ∈ (ipScores index q).mergeSort scoreDescLe :=
    (List.take_sublist _ _).subset h
  exact (List.mergeSort_perm (ipScores index q) scoreDescLe).mem_iff.mp h1

theorem faissSearch_length_le (index : List Vec) (q : Vec) (k : Nat) :
    (faissSearch index q k).length ≤ k := by
  simp [faissSearch, List.length_take]

theorem faissSearch_sorted (index : List Vec) (q : Vec) (k : Nat) :
    (faissSearch index q k).Pairwise (fun a b => b.1 ≤ a.1) := by
  have hs := List.sorted_mergeSort scoreDescLe_trans scoreDescLe_total
    (ipScores index q)
  have hp : ((ipScores index q).mergeSort scoreDescLe).Pairwise
      (fun a b : ℚ × Nat => b.1 ≤ a.1) := by
    refine hs.imp ?_
    intro a b hab
    simpa [scoreDescLe] using hab
  exact List.Pairwise.sublist (List.take_sublist _ _) hp

theorem faissSearch_complete {index : List Vec} {q : Vec} {k : Nat}
    (hk : index.length ≤ k) {p : ℚ × Nat} (hp : p ∈ ipScores index q) :
    p ∈ faissSearch index q k := by
  have hlen : ((ipScores index q).mergeSort scoreDescLe).length ≤ k := by
    rw [(List.mergeSort_perm (ipScores index q) scoreDescLe).length_eq,
      ipScores_length]
    exact hk
  rw [faissSearch, List.take_of_length_le hlen]
  exact (List.mergeSort_perm (ipScores index q) scoreDescLe).mem_iff.mpr hp

/-! ## Helper lemmas about `search` -/

theorem search_filter_eq_some {st : EngineState} {threshold : Option ℚ}
    {p : ℚ × Nat} {r : SearchResult}
    (h : searchFilter st threshold p = some r) :
    r = mkResult st p ∧ ∀ t, threshold = some t → t ≤ p.1 := by
  match threshold with
  | none =>
    simp only [searchFilter, Option.some.injEq] at h
    exact ⟨h.symm, by intro t ht; cases ht⟩
  | some t =>
    by_cases hlt : p.1 < t
    · simp [searchFilter, hlt] at h
    · simp only [searchFilter, hlt, if_false, Option.some.injEq] at h
      exact ⟨h.symm, by intro t' ht'; cases ht'; exact not_lt.mp hlt⟩

theorem mem_search_elim {normalize : Vec → Vec} {st : EngineState} {q : Vec}
    {topK : Nat} {threshold : Option ℚ} {r : SearchResult}
    (h : r ∈ search normalize st q topK threshold) :
    r.index < st.index.length ∧
    r.score = dot (normalize q) (st.index.getD r.index []) ∧
    (∀ t, threshold = some t → t ≤ r.score) := by
  rw [search] at h
  split at h
  · cases h
  · obtain ⟨p, hp, hfp⟩ := List.mem_filterMap.mp h
    obtain ⟨hr, hth⟩ := search_filter_eq_some hfp
    obtain ⟨hlt, hsc⟩ := mem_ipScores_elim (faissSearch_subset hp)
    subst hr
    exact ⟨hlt, hsc, hth⟩

theorem search_length_le (normalize : Vec → Vec) (st : EngineState) (q : Vec)
    (topK : Nat) (threshold : Option ℚ) :
    (search normalize st q topK threshold).length ≤ min topK st.index.length := by
  rw [search]
  split
  · simp
  · exact le_trans (List.length_filterMap_le _ _) (faissSearch_length_le _ _ _)

theorem search_sorted (normalize : Vec → Vec) (st : EngineState) (q : Vec)
    (topK : Nat) (threshold : Option ℚ) :
    (search normalize st q topK threshold).Pairwise fun r s => s.score ≤ r.score := by
  rw [search]
  split
  · exact List.Pairwise.nil
  · rw [List.pairwise_filterMap]
    refine (faissSearch_sorted _ _ _).imp ?_
    intro a b hab r hr s hs
    obtain ⟨hr', -⟩ := search_filter_eq_some hr
    obtain ⟨hs', -⟩ := search_filter_eq_some hs
    subst hr' hs'
    exact hab

/-! ## Claim C5: the `search` contract -/

/-- C5: `search` normalizes the query and returns at most `top_k` results
ordered by descending similarity score, excludes every result below the
threshold when one is supplied, clamps `top_k` to the record count, and
returns an empty sequence (not an error) on an empty index.  The reported
score of each result is the inner product of the normalized query with the
stored vector at the reported index. -/
theorem C5_search_contract (normalize : Vec → Vec) (st : EngineState) (q : Vec)
    (topK : Nat) (threshold : Option ℚ) :
    (st.index.length = 0 → search normalize st q topK threshold = []) ∧
    (search normalize st q topK threshold).length ≤ min topK st.index.length ∧
    (search normalize st q topK threshold).Pairwise (fun r s => s.score ≤ r.score) ∧
    (∀ r ∈ search normalize st q topK threshold,
      (∀ t, threshold = some t → t ≤ r.score) ∧
      r.index < st.index.length ∧
      r.score = dot (normalize q) (st.index.getD r.index [])) := by
  refine ⟨?_, search_length_le _ _ _ _ _, search_sorted _ _ _ _ _, ?_⟩
  · intro h
    rw [search, if_pos h]
  · intro r hr
    obtain ⟨h1, h2, h3⟩ := mem_search_elim hr
    exact ⟨h3, h1, h2⟩

/-- Witness for C5 at a concrete index of two one-dimensional records. -/
theorem C5_search_contract_witness :
    ((⟨[[1], [0]], ["a", "b"], [[], []]⟩ : EngineState).index.length = 0 →
      search id ⟨[[1], [0]], ["a", "b"], [[], []]⟩ [1] 1 none = []) ∧
    (search id ⟨[[1], [0]], ["a", "b"], [[], []]⟩ [1] 1 none).length ≤
      min 1 (⟨[[1], [0]], ["a", "b"], [[], []]⟩ : EngineState).index.length ∧
    (search id ⟨[[1], [0]], ["a", "b"], [[], []]⟩ [1] 1 none).Pairwise
      (fun r s => s.score ≤ r.score) ∧
    (∀ r ∈ search id ⟨[[1], [0]], ["a", "b"], [[], []]⟩ [1] 1 none,
      (∀ t, (none : Option ℚ) = some t → t ≤ r.score) ∧
      r.index < (⟨[[1], [0]], ["a", "b"], [[], []]⟩ : EngineState).index.length ∧
      r.score = dot (id [1])
        ((⟨[[1], [0]], ["a", "b"], [[], []]⟩ : EngineState).index.getD r.index [])) :=
  C5_search_contract id ⟨[[1], [0]], ["a", "b"], [[], []]⟩ [1] 1 none

/-! ## Claim C7: `add_vectors` validation -/

/-- C7 counterexample: a call with `len(vectors) = 0 ≠ 1 = len(texts)` does
not fail with a validation error — the emptiness guard returns silently
before the length check runs. -/
theorem C7_add_vectors_counterexample :
    add_vectors id emptyEngine [] ["a"] none = .ok emptyEngine ∧
    List.length ([] : List Vec) ≠ ["a"].length := by
  constructor
  · rfl
  · decide

/-- C7 (amended): when both argument lists are nonempty, a length mismatch
fails with a validation error and no record is appended; when either list is
empty the call is a silent no-op (this is the case the original claim misses);
when the lengths match (and the lists are nonempty) the records are appended,
and each new record receives an empty metadata mapping when metadata is
omitted. -/
theorem C7_add_vectors_contract (normalize : Vec → Vec) (st : EngineState)
    (embeddings : List Vec) (texts : List String)
    (metadata : Option (List Metadata)) :
    (¬ embeddings.isEmpty → ¬ texts.isEmpty → embeddings.length ≠ texts.length →
      add_vectors normalize st embeddings texts metadata =
        .error "Number of embeddings must match number of texts") ∧
    (embeddings.isEmpty ∨ texts.isEmpty →
      add_vectors normalize st embeddings texts metadata = .ok st) ∧
    (¬ embeddings.isEmpty → embeddings.length = texts.length → metadata = none →
      add_vectors normalize st embeddings texts metadata =
        .ok ⟨st.index ++ embeddings.map normalize,
             st.texts ++ texts,
             st.metadata ++ List.replicate texts.length []⟩) := by
  refine ⟨?_, ?_, ?_⟩
  · intro he ht hne
    rw [add_vectors.eq_def]
    rw [if_neg (by simp [he, ht]), if_pos hne]
  · intro h
    rw [add_vectors.eq_def, if_pos h]
  · intro he hlen hmd
    subst hmd
    have ht : ¬ texts.isEmpty := by
      intro h
      rw [List.isEmpty_iff] at h
      subst h
      simp at hlen
      rw [List.isEmpty_iff] at he
      exact he hlen
    rw [add_vectors.eq_def, if_neg (by simp [he, ht]), if_neg (by simp [hlen])]
    have : texts.map (fun _ => ([] : Metadata)) = List.replicate texts.length [] := by
      simp [List.map_const]
    rw [this]

/-- Witness for (the amended) C7: a mismatched nonempty call errors; a
matched call appends with empty metadata. -/
theorem C7_add_vectors_contract_witness :
    (add_vectors id emptyEngine [[1]] ["a", "b"] none =
      .error "Number of embeddings must match number of texts") ∧
    (add_vectors id emptyEngine [[1]] ["a"] none =
      .ok ⟨emptyEngine.index ++ [[1]].map id,
           emptyEngine.texts ++ ["a"],
           emptyEngine.metadata ++ List.replicate ["a"].length []⟩) := by
  constructor
  · exact (C7_add_vectors_contract id emptyEngine [[1]] ["a", "b"] none).1
      (by decide) (by decide) (by decide)
  · exact (C7_add_vectors_contract id emptyEngine [[1]] ["a"] none).2.2
      (by decide) (by decide) rfl

/-! ## Claim C9: the parallel-array invariant -/

theorem execOp_preserves_inv (normalize : Vec → Vec) (st : EngineState)
    (op : EngineOp) (hv : opValid op) (h : engineInv st) :
    engineInv (execOp normalize st op) := by
  cases op with
  | clear => exact ⟨rfl, rfl⟩
  | add e t m =>
    simp only [execOp]
    rw [add_vectors.eq_def]
    by_cases hemp : e.isEmpty ∨ t.isEmpty
    · rw [if_pos hemp]
      exact h
    · rw [if_neg hemp]
      by_cases hne : e.length ≠ t.length
      · rw [if_pos hne]
        exact h
      · rw [if_neg hne]
        push_neg at hne
        obtain ⟨h1, h2⟩ := h
        refine ⟨?_, ?_⟩
        · simp [h1, hne]
        · simp only [List.length_append, h2]
          congr 1
          rcases hv with hnone | ⟨ms, hms, hlen⟩
          · subst hnone
            simp
          · subst hms
            simp only
            by_cases hmse : ms.isEmpty
            · rw [if_pos hmse]
              simp
            · rw [if_neg hmse]
              exact hlen.symm

theorem foldl_execOp_inv (normalize : Vec → Vec) (ops : List EngineOp)
    (hv : ∀ op ∈ ops, opValid op) (st : EngineState) (h : engineInv st) :
    engineInv (ops.foldl (execOp normalize) st) := by
  induction ops generalizing st with
  | nil => exact h
  | cons op rest ih =>
    exact ih (fun o ho => hv o (List.mem_cons_of_mem _ ho))
      _ (execOp_preserves_inv normalize st op (hv op (List.mem_cons_self _ _)) h)

theorem mem_cluster_items {kmeansLabels : List Vec → Nat → List Nat}
    {kmeansCentroids : List Vec → Nat → List Vec} {st : EngineState}
    {n : Nat} {c : Nat × List ClusterItem} {item : ClusterItem}
    (hlab : ∀ vs k, (kmeansLabels vs k).length = vs.length)
    (hc : c ∈ (cluster_vectors kmeansLabels kmeansCentroids st n).clusters)
    (hitem : item ∈ c.2) : item.index < st.index.length := by
  rw [cluster_vectors] at hc
  split at hc
  · simp at hc
  · simp only [List.mem_map] at hc
    obtain ⟨lab, -, hlabeq⟩ := hc
    subst hlabeq
    simp only [List.mem_map] at hitem
    obtain ⟨p, hp, hpeq⟩ := hitem
    have hpm : p ∈ (kmeansLabels st.index (min n st.index.length)).enum :=
      List.mem_filter.mp hp |>.1
    have := (List.mem_enum_iff_getElem?.mp hpm)
    have hlt : p.1 < (kmeansLabels st.index (min n st.index.length)).length := by
      rcases Nat.lt_or_ge p.1 (kmeansLabels st.index (min n st.index.length)).length
        with hl | hl
      · exact hl
      · rw [List.getElem?_eq_none hl] at this
        cases this
    rw [hlab] at hlt
    rw [← hpeq]
    exact hlt

/-- C9: starting from the empty index, any sequence of `add_vectors` calls
(each with metadata omitted or of the same length as its texts) and
`clear_index` calls preserves `len(index) = len(texts) = len(metadata)`;
consequently every index value returned by `search` or by `cluster_vectors`
(whose labels, per the sklearn contract, number one per sample) refers to a
valid entry of both parallel arrays. -/
theorem C9_parallel_arrays (normalize : Vec → Vec)
    (kmeansLabels : List Vec → Nat → List Nat)
    (kmeansCentroids : List Vec → Nat → List Vec) :
    (∀ ops : List EngineOp, (∀ op ∈ ops, opValid op) →
      engineInv (ops.foldl (execOp normalize) emptyEngine)) ∧
    (∀ st : EngineState, engineInv st → ∀ q topK threshold,
      ∀ r ∈ search normalize st q topK threshold,
        r.index < st.texts.length ∧ r.index < st.metadata.length) ∧
    (∀ st : EngineState, engineInv st →
      (∀ vs k, (kmeansLabels vs k).length = vs.length) →
      ∀ n, ∀ c ∈ (cluster_vectors kmeansLabels kmeansCentroids st n).clusters,
        ∀ item ∈ c.2,
          item.index < st.texts.length ∧ item.index < st.metadata.length) := by
  refine ⟨?_, ?_, ?_⟩
  · intro ops hv
    exact foldl_execOp_inv normalize ops hv emptyEngine ⟨rfl, rfl⟩
  · intro st hinv q topK threshold r hr
    obtain ⟨hlt, -, -⟩ := mem_search_elim hr
    exact ⟨hinv.1 ▸ hlt, hinv.2 ▸ hinv.1 ▸ hlt⟩
  · intro st hinv hlab n c hc item hitem
    have hlt := mem_cluster_items hlab hc hitem
    exact ⟨hinv.1 ▸ hlt, hinv.2 ▸ hinv.1 ▸ hlt⟩

/-- Witness for C9: a concrete two-call history keeps the arrays aligned. -/
theorem C9_parallel_arrays_witness :
    engineInv ([EngineOp.add [[1]] ["a"] none,
                EngineOp.add [[0], [1]] ["b", "c"] (some [[], []])].foldl
      (execOp id) emptyEngine) :=
  (C9_parallel_arrays id (fun _ _ => []) (fun _ _ => [])).1
    [EngineOp.add [[1]] ["a"] none,
     EngineOp.add [[0], [1]] ["b", "c"] (some [[], []])]
    (by
      intro op hop
      simp only [List.mem_cons, List.mem_singleton] at hop
      rcases hop with h | h | h
      · subst h; exact Or.inl rfl
      · subst h; exact Or.inr ⟨[[], []], rfl, rfl⟩
      · cases h)

/-! ## Claim C2: `get_similar_pairs` -/

/-- The similarity the engine computes for the ordered pair `(i, j)`:
record `i`'s vector is reconstructed and re-normalized, then scored by inner
product against stored record `j`. -/
def pairScore (normalize : Vec → Vec) (st : EngineState) (i j : Nat) : ℚ :=
  dot (normalize (st.index.getD i [])) (st.index.getD j [])

/-- The contribution of record `i` to `get_similar_pairs`. -/
def pairPiece (normalize : Vec → Vec) (st : EngineState) (threshold : ℚ)
    (i : Nat) : List (Nat × Nat × ℚ) :=
  (faissSearch st.index (normalize (st.index.getD i []))
      (min 10 st.index.length)).filterMap
    (fun p => if i < p.2 ∧ threshold ≤ p.1 then some (i, p.2, p.1) else none)

theorem similar_pairs_eq {normalize : Vec → Vec} {st : EngineState} {θ : ℚ}
    (h2 : ¬ st.index.length < 2) :
    get_similar_pairs normalize st θ =
      (List.range st.index.length).flatMap (pairPiece normalize st θ) := by
  rw [get_similar_pairs, if_neg h2]
  rfl

theorem mem_pairPiece_elim {normalize : Vec → Vec} {st : EngineState} {θ : ℚ}
    {i : Nat} {x : Nat × Nat × ℚ} (h : x ∈ pairPiece normalize st θ i) :
    x.1 = i ∧ i < x.2.1 ∧ θ ≤ x.2.2 ∧
      x.2.2 = pairScore normalize st i x.2.1 ∧ x.2.1 < st.index.length := by
  obtain ⟨p, hp, hfp⟩ := List.mem_filterMap.mp h
  obtain ⟨hlt, hsc⟩ := mem_ipScores_elim (faissSearch_subset hp)
  split at hfp
  · rename_i hcond
    cases hfp
    exact ⟨rfl, hcond.1, hcond.2, hsc, hlt⟩
  · cases hfp

theorem pairPiece_length_le (normalize : Vec → Vec) (st : EngineState)
    (θ : ℚ) (i : Nat) :
    (pairPiece normalize st θ i).length ≤ min 10 st.index.length :=
  le_trans (List.length_filterMap_le _ _) (faissSearch_length_le _ _ _)

theorem mem_similar_pairs_elim {normalize : Vec → Vec} {st : EngineState}
    {θ : ℚ} {x : Nat × Nat × ℚ} (h : x ∈ get_similar_pairs normalize st θ) :
    x.1 < x.2.1 ∧ θ ≤ x.2.2 ∧ x.2.2 = pairScore normalize st x.1 x.2.1 := by
  by_cases h2 : st.index.length < 2
  · rw [get_similar_pairs, if_pos h2] at h
    cases h
  · rw [similar_pairs_eq h2] at h
    obtain ⟨i, -, hx⟩ := List.mem_flatMap.mp h
    obtain ⟨h1, h2', h3, h4, -⟩ := mem_pairPiece_elim hx
    subst h1
    exact ⟨h2', h3, h4⟩

theorem similar_pairs_complete {normalize : Vec → Vec} {st : EngineState}
    {θ : ℚ} (hn : st.index.length ≤ 10) {i j : Nat} (hij : i < j)
    (hj : j < st.index.length) (hθ : θ ≤ pairScore normalize st i j) :
    (i, j, pairScore normalize st i j) ∈ get_similar_pairs normalize st θ := by
  have h2 : ¬ st.index.length < 2 := by omega
  rw [similar_pairs_eq h2]
  rw [List.mem_flatMap]
  refine ⟨i, List.mem_range.mpr (lt_trans hij hj), ?_⟩
  rw [pairPiece, List.mem_filterMap]
  refine ⟨(pairScore normalize st i j, j), ?_, ?_⟩
  · exact faissSearch_complete (le_min hn le_rfl)
      (mem_ipScores_intro hj)
  · rw [if_pos ⟨hij, hθ⟩]

/-- C2 (amended): `similar_pairs(threshold)` reports only pairs
`(i, j, score)` with `i < j` whose engine-computed similarity equals `score`
and is ≥ `threshold` — so both orientations of a pair are never reported —
but, because each record is searched with `k = min(10, ntotal)`, the listing
is complete only when the index holds at most 10 records; with more records,
pairs outside a record's top-10 matches are silently missed. -/
theorem C2_similar_pairs_contract (normalize : Vec → Vec) (st : EngineState)
    (θ : ℚ) :
    (∀ x ∈ get_similar_pairs normalize st θ,
      x.1 < x.2.1 ∧ θ ≤ x.2.2 ∧ x.2.2 = pairScore normalize st x.1 x.2.1) ∧
    (∀ i j s s', (i, j, s) ∈ get_similar_pairs normalize st θ →
      (j, i, s') ∉ get_similar_pairs normalize st θ) ∧
    (st.index.length ≤ 10 → ∀ i j, i < j → j < st.index.length →
      θ ≤ pairScore normalize st i j →
      (i, j, pairScore normalize st i j) ∈ get_similar_pairs normalize st θ) := by
  refine ⟨?_, ?_, ?_⟩
  · intro x hx
    exact mem_similar_pairs_elim hx
  · intro i j s s' hij hji
    have h1 := (mem_similar_pairs_elim hij).1
    have h2 := (mem_similar_pairs_elim hji).1
    simp only at h1 h2
    omega
  · intro hn i j hij hj hθ
    exact similar_pairs_complete hn hij hj hθ

/-- A 12-record index of identical one-dimensional vectors: every pair is
maximally similar, but each record's search is capped at 10 hits. -/
def dozenEngine : EngineState :=
  ⟨List.replicate 12 [1], List.replicate 12 "t", List.replicate 12 []⟩

theorem dozenEngine_getD {m : Nat} (hm : m < 12) :
    dozenEngine.index.getD m [] = [1] := by
  have hm' : m < (List.replicate 12 ([1] : Vec)).length := by
    simpa using hm
  rw [dozenEngine, List.getD_eq_getElem _ _ hm']
  exact List.getElem_replicate _ _

theorem dozenEngine_pairScore {i j : Nat} (hi : i < 12) (hj : j < 12) :
    pairScore id dozenEngine i j = 1 := by
  rw [pairScore, dozenEngine_getD hi, dozenEngine_getD hj]
  simp [dot]

/-- C2 counterexample: on twelve identical records with threshold 0, the
claim's completeness requirement fails — record 0 would have to be paired
with all eleven later records, but its search returns at most
`min(10, ntotal) = 10` hits. -/
theorem C2_similar_pairs_counterexample :
    ¬ (∀ i j : Nat, i < j → j < dozenEngine.index.length →
        (0 : ℚ) ≤ pairScore id dozenEngine i j →
        (i, j, pairScore id dozenEngine i j) ∈ get_similar_pairs id dozenEngine 0) := by
  intro H
  have hlen : dozenEngine.index.length = 12 := by
    simp [dozenEngine]
  have hsub : ((List.range 11).map (fun j => ((0 : Nat), j + 1, (1 : ℚ)))) ⊆
      pairPiece id dozenEngine 0 0 := by
    intro x hx
    obtain ⟨j, hj, hxeq⟩ := List.mem_map.mp hx
    have hj11 : j < 11 := List.mem_range.mp hj
    have hs : pairScore id dozenEngine 0 (j + 1) = 1 :=
      dozenEngine_pairScore (by omega) (by omega)
    have hmem := H 0 (j + 1) (by omega) (by omega) (by rw [hs]; exact zero_le_one)
    rw [hs] at hmem
    rw [similar_pairs_eq (by omega)] at hmem
    obtain ⟨i', -, hx'⟩ := List.mem_flatMap.mp hmem
    have hi0 : i' = 0 := (mem_pairPiece_elim hx').1.symm
    subst hi0
    rw [← hxeq]
    exact hx'
  have hnodup : ((List.range 11).map (fun j => ((0 : Nat), j + 1, (1 : ℚ)))).Nodup := by
    refine List.Nodup.map ?_ (List.nodup_range 11)
    intro a b hab
    simp only [Prod.mk.injEq] at hab
    omega
  have hle := (List.subperm_of_subset hnodup hsub).length_le
  have h11 : ((List.range 11).map (fun j => ((0 : Nat), j + 1, (1 : ℚ)))).length = 11 := by
    simp
  have h10 := pairPiece_length_le id dozenEngine 0 0
  rw [hlen] at h10
  rw [h11] at hle
  omega

/-- Witness for (the amended) C2: on a two-record index the reported pair
list is complete and the pair `(0, 1)` is reported. -/
theorem C2_similar_pairs_contract_witness :
    (⟨[[1], [1]], ["a", "b"], [[], []]⟩ : EngineState).index.length ≤ 10 ∧
    (0, 1, pairScore id ⟨[[1], [1]], ["a", "b"], [[], []]⟩ 0 1) ∈
      get_similar_pairs id ⟨[[1], [1]], ["a", "b"], [[], []]⟩ 0 := by
  refine ⟨by decide, ?_⟩
  exact (C2_similar_pairs_contract id ⟨[[1], [1]], ["a", "b"], [[], []]⟩ 0).2.2
    (by decide) 0 1 (by decide) (by decide)
    (by simp [pairScore, dot])

/-! ## CacheManager (`app/cache.py`) -/

/-- The backing Redis store: its contents, plus a flag modelling store-level
failure (connection refused, timeout, …) in which every operation raises. -/
structure RedisStore where
  data : List (String × Vec)
  failing : Bool
deriving DecidableEq

def storeLookup (s : RedisStore) (k : String) : Option Vec :=
  (s.data.find? (fun p => p.1 = k)).map (·.2)

def storeInsert (s : RedisStore) (k : String) (v : Vec) : RedisStore :=
  { s with data := (k, v) :: s.data.filter (fun p => p.1 ≠ k) }

/-- `redis.get`. -/
def redisGet (s : RedisStore) (k : String) : Except String (Option Vec) :=
  if s.failing then .error "connection error" else .ok (storeLookup s k)

/-- `redis.setex` (the TTL only limits lifetime; it does not affect the
properties verified here). -/
def redisSetex (s : RedisStore) (k : String) (v : Vec) : Except String RedisStore :=
  if s.failing then .error "connection error" else .ok (storeInsert s k v)

/-- `redis.mget`. -/
def redisMget (s : RedisStore) (ks : List String) :
    Except String (List (Option Vec)) :=
  if s.failing then .error "connection error" else .ok (ks.map (storeLookup s))

/-- A `pipeline` of `setex` calls followed by `execute`. -/
def redisPipeSetex (s : RedisStore) (kvs : List (String × Vec)) :
    Except String RedisStore :=
  if s.failing then .error "connection error"
  else .ok (kvs.foldl (fun acc kv => storeInsert acc kv.1 kv.2) s)

/-- The string hashed by `CacheManager._generate_key`: `f"{text}:{model}"`. -/
def keyContent (text model : String) : String := text ++ ":" ++ model

/-- `CacheManager._generate_key`, parametric in the digest function
(`hashlib.md5(...).hexdigest()` is library code; every theorem below holds
for an arbitrary digest). -/
def generate_key (md5 : String → String) (text model : String) : String :=
  "embedding:" ++ md5 (keyContent text model)

/-- `CacheManager.get_embedding`: `None` when the manager marked itself
unavailable at construction, on any store error, or on a missing key. -/
def cm_get_embedding (md5 : String → String) (available : Bool) (s : RedisStore)
    (text model : String) : Option Vec :=
  if ¬ available then none
  else
    match redisGet s (generate_key md5 text model) with
    | .ok r => r
    | .error _ => none

/-- `CacheManager.set_embedding`: no-op when unavailable or on any store
error. -/
def cm_set_embedding (md5 : String → String) (available : Bool) (s : RedisStore)
    (text model : String) (embedding : Vec) : RedisStore :=
  if ¬ available then s
  else
    match redisSetex s (generate_key md5 text model) embedding with
    | .ok s' => s'
    | .error _ => s

/-- `CacheManager.get_batch_embeddings`: `[None] * len(texts)` when
unavailable or on any store error. -/
def cm_get_batch_embeddings (md5 : String → String) (available : Bool)
    (s : RedisStore) (texts : List String) (model : String) :
    List (Option Vec) :=
  if ¬ available then List.replicate texts.length none
  else
    match redisMget s (texts.map (fun t => generate_key md5 t model)) with
    | .ok vals => vals
    | .error _ => List.replicate texts.length none

/-- `CacheManager.set_batch_embeddings`: no-op when unavailable or on any
store error.  `zip(texts, embeddings)` truncates at the shorter list. -/
def cm_set_batch_embeddings (md5 : String → String) (available : Bool)
    (s : RedisStore) (texts : List String) (model : String)
    (embeddings : List Vec) : RedisStore :=
  if ¬ available then s
  else
    match redisPipeSetex s ((texts.zip embeddings).map
        (fun p => (generate_key md5 p.1 model, p.2))) with
    | .ok s' => s'
    | .error _ => s

/-! ## EmbeddingService (`app/embeddings.py`) -/

/-- Observable side-effect events of one service call, used to state
"no provider call / no cache access happened". -/
inductive SvcEvent
  | remoteCall
  | localEncode
  | localLoad
  | cacheRead
  | cacheWrite
deriving DecidableEq

/-- The recognized configuration surface (`config/settings.py`). -/
structure Settings where
  openai_api_key : Option String
  embedding_model_openai : String
  embedding_model_local : String
  max_batch_size : Nat

/-- The service's environment: settings, the OpenAI embeddings endpoint
(a deterministic function of model, input batch and retry-attempt number —
the `__init__` creates a client exactly when an API key is configured), and
the result of constructing `SentenceTransformer(settings.embedding_model_local)`
(`none` models a constructor that raises; `some enc` a model whose `encode`
is `enc`). -/
structure Env where
  settings : Settings
  remote : String → List String → Nat → Except String (List Vec)
  loadLocal : Option (List String → Except String (List Vec))

/-- The mutable state of `EmbeddingService` plus the cache world it talks
to: the lazily loaded local model and its name, and the `CacheManager`'s
availability flag and backing store. -/
structure ServiceState where
  localModel : Option (List String → Except String (List Vec))
  localModelName : Option String
  cacheAvailable : Bool
  store : RedisStore

/-- Result bundle of one service call: the returned value or raised
exception, the post-call state, and the event trace. -/
structure SvcOut (α : Type) where
  result : Except String α
  state : ServiceState
  trace : List SvcEvent

/-- Python truthiness of a fetched cache value (`if cached:`): absent or
empty is falsy. -/
def truthy (o : Option Vec) : Option Vec :=
  match o with
  | some v => if v.isEmpty then none else some v
  | none => none

/-- The model-resolution prologue shared by `get_embedding` and
`get_batch_embeddings`: Python's `if model and model.startswith(...)` /
`elif model` / `else` chain (note `model=""` is falsy and takes the default
branch). -/
def resolveModel (s : Settings) (model : Option String) : String × String :=
  match model with
  | some m =>
    if m ≠ "" ∧ pyStartsWith m "text-embedding" then ("openai", m)
    else if m ≠ "" then ("local", m)
    else if s.openai_api_key.isSome then ("openai", s.embedding_model_openai)
    else ("local", s.embedding_model_local)
  | none =>
    if s.openai_api_key.isSome then ("openai", s.embedding_model_openai)
    else ("local", s.embedding_model_local)

/-- `EmbeddingService._load_local_model`: attempted whenever no model is
held; a failing constructor leaves `local_model = None` (and is re-attempted
on the next call). -/
def load_local_model (env : Env) (st : ServiceState) :
    ServiceState × List SvcEvent :=
  match st.localModel with
  | some _ => (st, [])
  | none =>
    match env.loadLocal with
    | some enc =>
      ({ st with localModel := some enc,
                 localModelName := some env.settings.embedding_model_local },
       [.localLoad])
    | none => (st, [.localLoad])

/-- One attempt of `EmbeddingService._get_openai_embedding`: the missing-key
check is inside the retried function; `response.data[0]` indexes the first
returned embedding. -/
def openaiAttempt (env : Env) (text model : String) (attempt : Nat) :
    Except String Vec :=
  if env.settings.openai_api_key.isNone then .error "OpenAI API key not configured"
  else
    match env.remote model [text] attempt with
    | .ok vs =>
      match vs.head? with
      | some v => .ok v
      | none => .error "list index out of range"
    | .error e => .error e

/-- `tenacity @retry(stop=stop_after_attempt(3), ...)`: up to three attempts;
when all fail, the surfaced failure is modelled as the last attempt's message
(tenacity wraps it in a `RetryError`; the wrapper text is abstracted). -/
def retry3 (f : Nat → Except String Vec) : Except String Vec :=
  match f 0 with
  | .ok v => .ok v
  | .error _ =>
    match f 1 with
    | .ok v => .ok v
    | .error _ => f 2

/-- `EmbeddingService._get_openai_embedding` with its retry policy. -/
def get_openai_embedding (env : Env) (text model : String) : Except String Vec :=
  retry3 (openaiAttempt env text model)

/-- `EmbeddingService._get_local_embedding`: lazy load, then
`self.local_model.encode([text])[0]`. -/
def get_local_embedding (env : Env) (st : ServiceState) (text : String) :
    Except String Vec × ServiceState × List SvcEvent :=
  let r := load_local_model env st
  match r.1.localModel with
  | none => (.error "Local model not available", r.1, r.2)
  | some enc =>
    match enc [text] with
    | .ok vs =>
      match vs.head? with
      | some v => (.ok v, r.1, r.2 ++ [.localEncode])
      | none => (.error "list index out of range", r.1, r.2 ++ [.localEncode])
    | .error e => (.error e, r.1, r.2 ++ [.localEncode])

/-- The provider phase of `get_embedding` (the `try`/`except` from the
resolved provider call onward): call the resolved provider; on success write
back to the cache and return `(embedding, model_name)`; on a remote failure
fall back to the local provider only when `self.local_model is not None` at
that moment, caching and returning under `settings.embedding_model_local`;
otherwise raise `"All embedding methods failed: {e}"` where `e` is the
primary failure. -/
def singleCore (md5 : String → String) (env : Env) (st : ServiceState)
    (text : String) (modelType modelName : String) (useCache : Bool)
    (readTr : List SvcEvent) : SvcOut (Vec × String) :=
  if modelType = "openai" then
    match get_openai_embedding env text modelName with
    | .ok emb =>
      if useCache then
        { result := .ok (emb, modelName),
          state := { st with store := cm_set_embedding md5 st.cacheAvailable st.store text modelName emb },
          trace := readTr ++ [.remoteCall, .cacheWrite] }
      else
        { result := .ok (emb, modelName), state := st, trace := readTr ++ [.remoteCall] }
    | .error e =>
      match st.localModel with
      | some _ =>
        match get_local_embedding env st text with
        | (.ok emb, st2, tr2) =>
          if useCache then
            { result := .ok (emb, env.settings.embedding_model_local),
              state := { st2 with store := cm_set_embedding md5 st2.cacheAvailable st2.store text env.settings.embedding_model_local emb },
              trace := readTr ++ [.remoteCall] ++ tr2 ++ [.cacheWrite] }
          else
            { result := .ok (emb, env.settings.embedding_model_local),
              state := st2, trace := readTr ++ [.remoteCall] ++ tr2 }
        | (.error _, st2, tr2) =>
          { result := .error ("All embedding methods failed: " ++ e),
            state := st2, trace := readTr ++ [.remoteCall] ++ tr2 }
      | none =>
        { result := .error ("All embedding methods failed: " ++ e),
          state := st, trace := readTr ++ [.remoteCall] }
  else
    match get_local_embedding env st text with
    | (.ok emb, st2, tr2) =>
      if useCache then
        { result := .ok (emb, modelName),
          state := { st2 with store := cm_set_embedding md5 st2.cacheAvailable st2.store text modelName emb },
          trace := readTr ++ tr2 ++ [.cacheWrite] }
      else
        { result := .ok (emb, modelName), state := st2, trace := readTr ++ tr2 }
    | (.error e, st2, tr2) =>
      { result := .error ("All embedding methods failed: " ++ e),
        state := st2, trace := readTr ++ tr2 }

/-- `EmbeddingService.get_embedding`.  Mirrors the source: resolve the route;
consult the cache (a hit must be truthy — a present-but-empty vector falls
through); then run the provider phase (`singleCore`). -/
def get_embedding (md5 : String → String) (env : Env) (st : ServiceState)
    (text : String) (model : Option String) (useCache : Bool) :
    SvcOut (Vec × String) :=
  let mt := resolveModel env.settings model
  let modelName := mt.2
  let readTr : List SvcEvent := if useCache then [.cacheRead] else []
  let cached : Option Vec :=
    if useCache then
      truthy (cm_get_embedding md5 st.cacheAvailable st.store text modelName)
    else none
  match cached with
  | some v => { result := .ok (v, modelName), state := st, trace := readTr }
  | none => singleCore md5 env st text mt.1 mt.2 useCache readTr

/-- The cache-splitting loop of `get_batch_embeddings`: walking
`zip(texts, cached_embeddings)` with a running position, it builds the
partially filled result list (`None` placeholders at misses — an untruthy
cached value, i.e. absent or empty, is a miss), the list of miss positions,
and the list of miss texts, all in original order. -/
def scanCache : List (String × Option Vec) → Nat →
    List (Option Vec) × List Nat × List String
  | [], _ => ([], [], [])
  | (t, c) :: rest, i =>
    let r := scanCache rest (i + 1)
    match c with
    | some v =>
      if v.isEmpty then (none :: r.1, i :: r.2.1, t :: r.2.2)
      else (some v :: r.1, r.2.1, r.2.2)
    | none => (none :: r.1, i :: r.2.1, t :: r.2.2)

/-- The scatter loop `for idx, emb in zip(uncached_indices, new_embeddings):
embeddings[idx] = emb`. -/
def scatterAt (es : List (Option Vec)) : List (Nat × Vec) → List (Option Vec)
  | [] => es
  | (i, v) :: rest => scatterAt (es.set i (some v)) rest

/-- The `except` handler of the batched remote call (and of the primary
local batch call when the route was remote): load the local model, batch
encode the whole miss subset, rewrite `model_name` to the local model and
cache under it; a missing local model raises `"Local model fallback failed"`
into the handler that formats `"All batch embedding methods failed: {e},
{fallback_error}"`. -/
def batchFallback (md5 : String → String) (env : Env) (st : ServiceState)
    (embeddings : List (Option Vec)) (uncachedIndices : List Nat)
    (uncachedTexts : List String) (useCache : Bool) (e : String)
    (tr : List SvcEvent) : SvcOut (List (Option Vec) × String) :=
  let r := load_local_model env st
  match r.1.localModel with
  | none =>
    { result := .error ("All batch embedding methods failed: " ++ e ++
        ", Local model fallback failed"),
      state := r.1, trace := tr ++ r.2 }
  | some enc =>
    match enc uncachedTexts with
    | .ok newEmbs =>
      if useCache then
        { result := .ok (scatterAt embeddings (uncachedIndices.zip newEmbs),
            env.settings.embedding_model_local),
          state := { r.1 with store := cm_set_batch_embeddings md5 r.1.cacheAvailable r.1.store uncachedTexts env.settings.embedding_model_local newEmbs },
          trace := tr ++ r.2 ++ [.localEncode, .cacheWrite] }
      else
        { result := .ok (scatterAt embeddings (uncachedIndices.zip newEmbs),
            env.settings.embedding_model_local),
          state := r.1, trace := tr ++ r.2 ++ [.localEncode] }
    | .error fe =>
      { result := .error ("All batch embedding methods failed: " ++ e ++ ", " ++ fe),
        state := r.1, trace := tr ++ r.2 ++ [.localEncode] }

/-- The phase of `get_batch_embeddings` after the cache split (`# Process
uncached texts` onward), parametric in the split's outcome: the batched
provider call on the miss subset, the scatter of new embeddings into their
original positions, the batched cache write-back, and the remote → local
batch-granularity fallback. -/
def batchCore (md5 : String → String) (env : Env) (st : ServiceState)
    (modelType modelName : String) (embeddings : List (Option Vec))
    (uncachedIndices : List Nat) (uncachedTexts : List String)
    (useCache : Bool) (readTr : List SvcEvent) :
    SvcOut (List (Option Vec) × String) :=
  if uncachedTexts.isEmpty then
    { result := .ok (embeddings, modelName), state := st, trace := readTr }
  else
    if modelType = "openai" ∧ env.settings.openai_api_key.isSome then
      match env.remote modelName uncachedTexts 0 with
      | .ok newEmbs =>
        if useCache ∧ ¬ newEmbs.isEmpty then
          { result := .ok (scatterAt embeddings (uncachedIndices.zip newEmbs), modelName),
            state := { st with store := cm_set_batch_embeddings md5 st.cacheAvailable st.store uncachedTexts modelName newEmbs },
            trace := readTr ++ [.remoteCall, .cacheWrite] }
        else
          { result := .ok (scatterAt embeddings (uncachedIndices.zip newEmbs), modelName),
            state := st, trace := readTr ++ [.remoteCall] }
      | .error e =>
        batchFallback md5 env st embeddings uncachedIndices uncachedTexts
          useCache e (readTr ++ [.remoteCall])
    else
      let r := load_local_model env st
      match r.1.localModel with
      | none =>
        if modelType = "openai" then
          batchFallback md5 env r.1 embeddings uncachedIndices uncachedTexts
            useCache "Local model not available" (readTr ++ r.2)
        else
          { result := .error "Batch embedding failed: Local model not available",
            state := r.1, trace := readTr ++ r.2 }
      | some enc =>
        match enc uncachedTexts with
        | .ok newEmbs =>
          if useCache ∧ ¬ newEmbs.isEmpty then
            { result := .ok (scatterAt embeddings (uncachedIndices.zip newEmbs), modelName),
              state := { r.1 with store := cm_set_batch_embeddings md5 r.1.cacheAvailable r.1.store uncachedTexts modelName newEmbs },
              trace := readTr ++ r.2 ++ [.localEncode, .cacheWrite] }
          else
            { result := .ok (scatterAt embeddings (uncachedIndices.zip newEmbs), modelName),
              state := r.1, trace := readTr ++ r.2 ++ [.localEncode] }
        | .error e =>
          if modelType = "openai" then
            batchFallback md5 env r.1 embeddings uncachedIndices uncachedTexts
              useCache e (readTr ++ r.2 ++ [.localEncode])
          else
            { result := .error ("Batch embedding failed: " ++ e),
              state := r.1, trace := readTr ++ r.2 ++ [.localEncode] }

/-- `EmbeddingService.get_batch_embeddings`.  The over-size check precedes
everything; cache hits and misses are split preserving positions; the miss
subset goes to the provider in one batched call (the remote batch call is
*not* retried); remote batch failure falls back to one batched local call
for the whole miss subset; newly computed vectors are written back in one
batched cache write; the returned model name is the one that produced the
newly computed vectors. -/
def get_batch_embeddings (md5 : String → String) (env : Env) (st : ServiceState)
    (texts : List String) (model : Option String) (useCache : Bool) :
    SvcOut (List (Option Vec) × String) :=
  if texts.length > env.settings.max_batch_size then
    { result := .error ("Batch size " ++ toString texts.length ++
        " exceeds limit " ++ toString env.settings.max_batch_size),
      state := st, trace := [] }
  else
    let mt := resolveModel env.settings model
    let scan :=
      if useCache then
        scanCache (texts.zip
          (cm_get_batch_embeddings md5 st.cacheAvailable st.store texts mt.2)) 0
      else (texts.map (fun _ => none), List.range texts.length, texts)
    batchCore md5 env st mt.1 mt.2 scan.1 scan.2.1 scan.2.2 useCache
      (if useCache then [.cacheRead] else [])

/-! ## Claim C10: cache-key collision by construction -/

theorem storeLookup_insert_self (s : RedisStore) (k : String) (v : Vec) :
    storeLookup (storeInsert s k v) k = some v := by
  simp [storeLookup, storeInsert, List.find?_cons_of_pos]

theorem storeInsert_failing (s : RedisStore) (k : String) (v : Vec) :
    (storeInsert s k v).failing = s.failing := rfl

/-- C10: the key fingerprints `text + ":" + model`, so the distinct pairs
`("a:b", "c")` and `("a", "b:c")` hash the same content and collide for
every digest function; consequently a vector cached for the first pair is
returned for the second. -/
theorem C10_cache_key_collision (md5 : String → String) (s : RedisStore)
    (v : Vec) (hs : s.failing = false) :
    keyContent "a:b" "c" = keyContent "a" "b:c" ∧
    (("a:b", "c") ≠ ("a", "b:c")) ∧
    generate_key md5 "a:b" "c" = generate_key md5 "a" "b:c" ∧
    cm_get_embedding md5 true (cm_set_embedding md5 true s "a:b" "c" v)
      "a" "b:c" = some v := by
  have hkc : keyContent "a:b" "c" = keyContent "a" "b:c" := by decide
  have hk : generate_key md5 "a:b" "c" = generate_key md5 "a" "b:c" := by
    rw [generate_key, generate_key, hkc]
  refine ⟨hkc, by decide, hk, ?_⟩
  rw [cm_set_embedding]
  rw [if_neg (by simp), redisSetex, if_neg (by simp [hs])]
  rw [cm_get_embedding, if_neg (by simp), redisGet,
    if_neg (by simp [storeInsert_failing, hs]), ← hk, storeLookup_insert_self]

/-- Witness for C10 on the empty, healthy store with the vector `[1]`. -/
theorem C10_cache_key_collision_witness :
    cm_get_embedding id true (cm_set_embedding id true ⟨[], false⟩ "a:b" "c" [1])
      "a" "b:c" = some [1] :=
  (C10_cache_key_collision id ⟨[], false⟩ [1] rfl).2.2.2

/-! ## Claim C3: cache operations fail open -/

theorem cm_get_embedding_unavailable (md5 : String → String) (available : Bool)
    (s : RedisStore) (text model : String)
    (h : s.failing = true ∨ available = false) :
    cm_get_embedding md5 available s text model = none := by
  rw [cm_get_embedding]
  rcases h with h | h
  · by_cases ha : available
    · rw [if_neg (by simp [ha]), redisGet, if_pos h]
    · rw [if_pos (by simpa using ha)]
  · rw [if_pos (by simp [h])]

theorem cm_set_embedding_unavailable (md5 : String → String) (available : Bool)
    (s : RedisStore) (text model : String) (embedding : Vec)
    (h : s.failing = true ∨ available = false) :
    cm_set_embedding md5 available s text model embedding = s := by
  rw [cm_set_embedding]
  rcases h with h | h
  · by_cases ha : available
    · rw [if_neg (by simp [ha]), redisSetex, if_pos h]
    · rw [if_pos (by simpa using ha)]
  · rw [if_pos (by simp [h])]

theorem cm_get_batch_unavailable (md5 : String → String) (available : Bool)
    (s : RedisStore) (texts : List String) (model : String)
    (h : s.failing = true ∨ available = false) :
    cm_get_batch_embeddings md5 available s texts model =
      List.replicate texts.length none := by
  rw [cm_get_batch_embeddings]
  rcases h with h | h
  · by_cases ha : available
    · rw [if_neg (by simp [ha]), redisMget, if_pos h]
    · rw [if_pos (by simpa using ha)]
  · rw [if_pos (by simp [h])]

theorem cm_set_batch_unavailable (md5 : String → String) (available : Bool)
    (s : RedisStore) (texts : List String) (model : String)
    (embeddings : List Vec) (h : s.failing = true ∨ available = false) :
    cm_set_batch_embeddings md5 available s texts model embeddings = s := by
  rw [cm_set_batch_embeddings]
  rcases h with h | h
  · by_cases ha : available
    · rw [if_neg (by simp [ha]), redisPipeSetex, if_pos h]
    · rw [if_pos (by simpa using ha)]
  · rw [if_pos (by simp [h])]

theorem get_embedding_result_cachefree (md5 : String → String) (env : Env)
    (st : ServiceState) (text : String) (model : Option String) (uc : Bool)
    (h : st.store.failing = true ∨ st.cacheAvailable = false) :
    (get_embedding md5 env st text model uc).result =
      (get_embedding md5 env st text model false).result := by
  cases uc with
  | false => rfl
  | true =>
    have hget := cm_get_embedding_unavailable md5 st.cacheAvailable st.store
      text (resolveModel env.settings model).2 h
    simp only [get_embedding, singleCore, hget, truthy]
    by_cases hop : (resolveModel env.settings model).1 = "openai"
    · simp only [if_pos hop]
      cases hrem : get_openai_embedding env text (resolveModel env.settings model).2 with
      | ok emb => simp
      | error e =>
        cases hlm : st.localModel with
        | none => simp
        | some enc =>
          rcases hloc : get_local_embedding env st text with ⟨res, st2, tr2⟩
          cases res with
          | ok emb => simp [hloc]
          | error e2 => simp [hloc]
    · simp only [if_neg hop]
      rcases hloc : get_local_embedding env st text with ⟨res, st2, tr2⟩
      cases res with
      | ok emb => simp [hloc]
      | error e2 => simp [hloc]

theorem scan_allMiss_aux (texts : List String) (i : Nat) :
    scanCache (texts.zip (List.replicate texts.length (none : Option Vec))) i =
      (texts.map (fun _ => none), (List.range texts.length).map (· + i), texts) := by
  induction texts generalizing i with
  | nil => rfl
  | cons t ts ih =>
    show scanCache ((t, none) :: ts.zip (List.replicate ts.length none)) i = _
    rw [scanCache, ih (i + 1)]
    simp only [List.length_cons, List.range_succ_eq_map, List.map_cons, List.map_map,
      Nat.zero_add, Prod.mk.injEq, List.cons.injEq, true_and, and_true]
    refine List.map_congr_left ?_
    intro a _
    simp only [Function.comp_apply]
    omega

theorem scan_allMiss (texts : List String) :
    scanCache (texts.zip (List.replicate texts.length (none : Option Vec))) 0 =
      (texts.map (fun _ => none), List.range texts.length, texts) := by
  rw [scan_allMiss_aux]
  simp

theorem batchFallback_result (md5 : String → String) (env : Env)
    (st : ServiceState) (embeddings : List (Option Vec))
    (uncachedIndices : List Nat) (uncachedTexts : List String)
    (uc uc' : Bool) (e : String) (tr tr' : List SvcEvent) :
    (batchFallback md5 env st embeddings uncachedIndices uncachedTexts uc e tr).result =
      (batchFallback md5 env st embeddings uncachedIndices uncachedTexts uc' e tr').result := by
  simp only [batchFallback]
  rcases h : load_local_model env st with ⟨st1, tr1⟩
  simp only [h]
  rcases hl : st1.localModel with - | enc
  · simp [hl]
  · simp only [hl]
    rcases he : enc uncachedTexts with fe | newEmbs
    · simp [he]
    · simp only [he]
      cases uc <;> cases uc' <;> rfl

theorem batchCore_result (md5 : String → String) (env : Env)
    (st : ServiceState) (modelType modelName : String)
    (embeddings : List (Option Vec)) (uncachedIndices : List Nat)
    (uncachedTexts : List String) (uc uc' : Bool) (tr tr' : List SvcEvent) :
    (batchCore md5 env st modelType modelName embeddings uncachedIndices
        uncachedTexts uc tr).result =
      (batchCore md5 env st modelType modelName embeddings uncachedIndices
        uncachedTexts uc' tr').result := by
  simp only [batchCore]
  by_cases hemp : uncachedTexts.isEmpty
  · simp [hemp]
  · simp only [hemp, Bool.false_eq_true, if_false]
    by_cases hop : modelType = "openai" ∧ env.settings.openai_api_key.isSome
    · simp only [if_pos hop]
      rcases hrem : env.remote modelName uncachedTexts 0 with e | newEmbs
      · simp only [hrem]
        exact batchFallback_result md5 env st _ _ _ uc uc' e _ _
      · simp only [hrem]
        cases uc <;> cases uc' <;> by_cases hne : newEmbs.isEmpty <;> simp [hne]
    · simp only [if_neg hop]
      rcases h : load_local_model env st with ⟨st1, tr1⟩
      simp only [h]
      rcases hlm : st1.localModel with - | enc
      · simp only [hlm]
        by_cases hop2 : modelType = "openai"
        · simp only [if_pos hop2]
          exact batchFallback_result md5 env st1 _ _ _ uc uc' _ _ _
        · simp [hop2]
      · simp only [hlm]
        rcases henc : enc uncachedTexts with e | newEmbs
        · simp only [henc]
          by_cases hop2 : modelType = "openai"
          · simp only [if_pos hop2]
            exact batchFallback_result md5 env st1 _ _ _ uc uc' _ _ _
          · simp [hop2]
        · simp only [henc]
          cases uc <;> cases uc' <;> by_cases hne : newEmbs.isEmpty <;> simp [hne]

theorem get_batch_result_cachefree (md5 : String → String) (env : Env)
    (st : ServiceState) (texts : List String) (model : Option String) (uc : Bool)
    (h : st.store.failing = true ∨ st.cacheAvailable = false) :
    (get_batch_embeddings md5 env st texts model uc).result =
      (get_batch_embeddings md5 env st texts model false).result := by
  cases uc with
  | false => rfl
  | true =>
    by_cases hbig : texts.length > env.settings.max_batch_size
    · simp only [get_batch_embeddings, if_pos hbig]
    · have hgb := cm_get_batch_unavailable md5 st.cacheAvailable st.store
        texts (resolveModel env.settings model).2 h
      simp only [get_batch_embeddings, if_neg hbig, hgb, scan_allMiss]
      simp only [if_pos rfl, Bool.false_eq_true, if_false]
      exact batchCore_result md5 env st _ _ _ _ _ true false _ _

/-- C3: on store-level error or unavailability every cache operation
degrades — `get` to absent, `get_batch` to absent at every position (same
length, order trivially preserved), `set`/`set_batch` to a no-op — no error
reaches the caller (the operations are total), and an embedding-generation
call returns exactly the result it would produce with caching disabled, so a
cache failure never fails the call. -/
theorem C3_cache_fail_open (md5 : String → String) (available : Bool)
    (s : RedisStore) (text model : String) (texts : List String)
    (embedding : Vec) (embeddings : List Vec)
    (h : s.failing = true ∨ available = false) :
    cm_get_embedding md5 available s text model = none ∧
    cm_set_embedding md5 available s text model embedding = s ∧
    cm_get_batch_embeddings md5 available s texts model =
      List.replicate texts.length none ∧
    cm_set_batch_embeddings md5 available s texts model embeddings = s ∧
    (∀ (env : Env) (st : ServiceState) (t : String) (m : Option String) (uc : Bool),
      st.store.failing = true ∨ st.cacheAvailable = false →
      (get_embedding md5 env st t m uc).result =
        (get_embedding md5 env st t m false).result) ∧
    (∀ (env : Env) (st : ServiceState) (ts : List String) (m : Option String) (uc : Bool),
      st.store.failing = true ∨ st.cacheAvailable = false →
      (get_batch_embeddings md5 env st ts m uc).result =
        (get_batch_embeddings md5 env st ts m false).result) :=
  ⟨cm_get_embedding_unavailable md5 available s text model h,
   cm_set_embedding_unavailable md5 available s text model embedding h,
   cm_get_batch_unavailable md5 available s texts model h,
   cm_set_batch_unavailable md5 available s texts model embeddings h,
   fun env st t m uc h' => get_embedding_result_cachefree md5 env st t m uc h',
   fun env st ts m uc h' => get_batch_result_cachefree md5 env st ts m uc h'⟩

/-- Witness for C3 on a concretely failing store. -/
theorem C3_cache_fail_open_witness :
    cm_get_embedding id true ⟨[], true⟩ "a" "b" = none ∧
    cm_set_embedding id true ⟨[], true⟩ "a" "b" [1] = ⟨[], true⟩ ∧
    cm_get_batch_embeddings id true ⟨[], true⟩ ["a"] "b" =
      List.replicate (["a"] : List String).length none ∧
    cm_set_batch_embeddings id true ⟨[], true⟩ ["a"] "b" [[1]] = ⟨[], true⟩ ∧
    (∀ (env : Env) (st : ServiceState) (t : String) (m : Option String) (uc : Bool),
      st.store.failing = true ∨ st.cacheAvailable = false →
      (get_embedding id env st t m uc).result =
        (get_embedding id env st t m false).result) ∧
    (∀ (env : Env) (st : ServiceState) (ts : List String) (m : Option String) (uc : Bool),
      st.store.failing = true ∨ st.cacheAvailable = false →
      (get_batch_embeddings id env st ts m uc).result =
        (get_batch_embeddings id env st ts m false).result) :=
  C3_cache_fail_open id true ⟨[], true⟩ "a" "b" ["a"] [1] [[1]] (Or.inl rfl)

/-! ## Claim C4: the batch-size guard -/

/-- C4: a batch longer than `max_batch_size` is rejected with the validation
error before any side effect: the state (cache store and local model) is
untouched, the event trace is empty (no provider call, no cache read or
write), and no partial results are returned. -/
theorem C4_batch_size_guard (md5 : String → String) (env : Env)
    (st : ServiceState) (texts : List String) (model : Option String)
    (uc : Bool) (h : texts.length > env.settings.max_batch_size) :
    get_batch_embeddings md5 env st texts model uc =
      { result := .error ("Batch size " ++ toString texts.length ++
          " exceeds limit " ++ toString env.settings.max_batch_size),
        state := st, trace := [] } := by
  rw [get_batch_embeddings.eq_def, if_pos h]

/-- Witness for C4: a 2-text batch against `max_batch_size = 1`. -/
theorem C4_batch_size_guard_witness :
    get_batch_embeddings id
      ⟨⟨some "k", "text-embedding-3-small", "all-MiniLM-L6-v2", 1⟩,
        fun _ _ _ => .error "net", none⟩
      ⟨none, none, true, ⟨[], false⟩⟩ ["a", "b"] none true =
      { result := .error ("Batch size " ++ toString (["a", "b"] : List String).length ++
          " exceeds limit " ++ toString (1 : Nat)),
        state := ⟨none, none, true, ⟨[], false⟩⟩, trace := [] } :=
  C4_batch_size_guard id
    ⟨⟨some "k", "text-embedding-3-small", "all-MiniLM-L6-v2", 1⟩,
      fun _ _ _ => .error "net", none⟩
    ⟨none, none, true, ⟨[], false⟩⟩ ["a", "b"] none true (by decide)

/-! ## Claim C1: remote failure, local fallback -/

theorem cm_set_get (md5 : String → String) (s : RedisStore)
    (text model : String) (v : Vec) (hfail : s.failing = false) :
    cm_get_embedding md5 true (cm_set_embedding md5 true s text model v)
      text model = some v := by
  rw [cm_set_embedding, if_neg (by simp), redisSetex, if_neg (by simp [hfail])]
  rw [cm_get_embedding, if_neg (by simp), redisGet,
    if_neg (by simp [storeInsert_failing, hfail]), storeLookup_insert_self]

theorem get_local_of_loaded (env : Env) (st : ServiceState) (text : String)
    (enc : List String → Except String (List Vec)) (v : Vec) (vs : List Vec)
    (hlm : st.localModel = some enc) (henc : enc [text] = .ok (v :: vs)) :
    get_local_embedding env st text = (.ok v, st, [.localEncode]) := by
  simp [get_local_embedding, load_local_model, hlm, henc]

/-- The environment used by the C1 counterexample: a configured remote
provider whose calls always fail, and a loadable local model that is not yet
loaded. -/
def envRemoteDown : Env :=
  ⟨⟨some "k", "text-embedding-3-small", "all-MiniLM-L6-v2", 100⟩,
   fun _ _ _ => .error "remoteboom",
   some (fun ts => .ok (ts.map (fun _ => [1])))⟩

/-- A fresh service state: no local model loaded yet, healthy available
cache over an empty store. -/
def freshState : ServiceState := ⟨none, none, true, ⟨[], false⟩⟩

/-- C1 counterexample: the remote route fails after its retries and the
local model *can* be loaded (`loadLocal` is available), yet `get_embedding`
fails — the single-item fallback runs only when `self.local_model is not
None` already, and never attempts the load. -/
theorem C1_remote_fallback_counterexample :
    envRemoteDown.loadLocal.isSome = true ∧
    (get_embedding id envRemoteDown freshState "hello" none true).result =
      .error "All embedding methods failed: remoteboom" := by
  exact ⟨rfl, rfl⟩

/-- C1 (amended): when the resolved route is remote, the cache misses, the
remote call fails after its retries, and a local model is *already loaded*
(the single-item fallback never loads one), `get_embedding` succeeds with
the local vector, returns `settings.embedding_model_local` as the effective
model name, and — given a healthy available cache and a truthy vector —
writes the vector under that name, so a subsequent call naming the local
model explicitly is a cache hit: same value, no provider call, state
unchanged. -/
theorem C1_remote_fallback_contract (md5 : String → String) (env : Env)
    (st : ServiceState) (text : String) (model : Option String)
    (rname : String) (enc : List String → Except String (List Vec))
    (v : Vec) (e : String)
    (hres : resolveModel env.settings model = ("openai", rname))
    (hmiss : cm_get_embedding md5 st.cacheAvailable st.store text rname = none)
    (hrem : get_openai_embedding env text rname = .error e)
    (hlm : st.localModel = some enc)
    (henc : enc [text] = .ok [v])
    (hv : v.isEmpty = false)
    (havail : st.cacheAvailable = true)
    (hfail : st.store.failing = false)
    (hl1 : env.settings.embedding_model_local ≠ "")
    (hl2 : pyStartsWith env.settings.embedding_model_local "text-embedding" = false) :
    (get_embedding md5 env st text model true).result =
      .ok (v, env.settings.embedding_model_local) ∧
    (get_embedding md5 env (get_embedding md5 env st text model true).state
        text (some env.settings.embedding_model_local) true).result =
      .ok (v, env.settings.embedding_model_local) ∧
    (get_embedding md5 env (get_embedding md5 env st text model true).state
        text (some env.settings.embedding_model_local) true).trace =
      [.cacheRead] ∧
    (get_embedding md5 env (get_embedding md5 env st text model true).state
        text (some env.settings.embedding_model_local) true).state =
      (get_embedding md5 env st text model true).state := by
  have hloc := get_local_of_loaded env st text enc v [] hlm henc
  have h1 : get_embedding md5 env st text model true =
      { result := .ok (v, env.settings.embedding_model_local),
        state := { st with store := cm_set_embedding md5 st.cacheAvailable st.store text env.settings.embedding_model_local v },
        trace := [.cacheRead, .remoteCall, .localEncode, .cacheWrite] } := by
    simp [get_embedding, singleCore, truthy, hres, hmiss, hrem, hlm, hloc]
  have hres2 : resolveModel env.settings (some env.settings.embedding_model_local) =
      ("local", env.settings.embedding_model_local) := by
    simp [resolveModel, hl1, hl2]
  have hhit : cm_get_embedding md5 st.cacheAvailable
      (cm_set_embedding md5 st.cacheAvailable st.store text
        env.settings.embedding_model_local v) text
      env.settings.embedding_model_local = some v := by
    rw [havail]
    exact cm_set_get md5 st.store text _ v hfail
  have h2 : get_embedding md5 env
      ({ st with store := cm_set_embedding md5 st.cacheAvailable st.store text env.settings.embedding_model_local v })
      text (some env.settings.embedding_model_local) true =
      { result := .ok (v, env.settings.embedding_model_local),
        state := { st with store := cm_set_embedding md5 st.cacheAvailable st.store text env.settings.embedding_model_local v },
        trace := [.cacheRead] } := by
    simp [get_embedding, truthy, hres2, hhit, hv]
  rw [h1]
  exact ⟨rfl, by rw [h2], by rw [h2], by rw [h2]⟩

/-- The environment for the C1 witness: remote configured but failing, local
model already loaded in the state below. -/
def stLoaded : ServiceState :=
  ⟨some (fun ts => .ok (ts.map (fun _ => [1]))), some "all-MiniLM-L6-v2",
   true, ⟨[], false⟩⟩

/-- Witness for (the amended) C1: with the local model already loaded, the
fallback succeeds, returns the local name, and the follow-up call naming the
local model is a pure cache hit. -/
theorem C1_remote_fallback_contract_witness :
    (get_embedding id envRemoteDown stLoaded "hello" none true).result =
      .ok ([1], envRemoteDown.settings.embedding_model_local) ∧
    (get_embedding id envRemoteDown
        (get_embedding id envRemoteDown stLoaded "hello" none true).state
        "hello" (some envRemoteDown.settings.embedding_model_local) true).result =
      .ok ([1], envRemoteDown.settings.embedding_model_local) ∧
    (get_embedding id envRemoteDown
        (get_embedding id envRemoteDown stLoaded "hello" none true).state
        "hello" (some envRemoteDown.settings.embedding_model_local) true).trace =
      [.cacheRead] ∧
    (get_embedding id envRemoteDown
        (get_embedding id envRemoteDown stLoaded "hello" none true).state
        "hello" (some envRemoteDown.settings.embedding_model_local) true).state =
      (get_embedding id envRemoteDown stLoaded "hello" none true).state :=
  C1_remote_fallback_contract id envRemoteDown stLoaded "hello" none
    "text-embedding-3-small" (fun ts => .ok (ts.map (fun _ => [1]))) [1]
    "remoteboom" rfl rfl rfl rfl rfl rfl rfl rfl (by decide) (by decide)

/-! ## Claim C6: the terminal "all methods failed" error -/

theorem get_local_of_loaded_err (env : Env) (st : ServiceState) (text : String)
    (enc : List String → Except String (List Vec)) (fe : String)
    (hlm : st.localModel = some enc) (henc : enc [text] = .error fe) :
    get_local_embedding env st text = (.error fe, st, [.localEncode]) := by
  simp [get_local_embedding, load_local_model, hlm, henc]

/-- A state whose loaded local model always fails with one message. -/
def stLocalBoomOne : ServiceState :=
  ⟨some (fun _ => .error "localboom-one"), some "all-MiniLM-L6-v2",
   true, ⟨[], false⟩⟩

/-- Same, but the local failure cause differs. -/
def stLocalBoomTwo : ServiceState :=
  ⟨some (fun _ => .error "localboom-two"), some "all-MiniLM-L6-v2",
   true, ⟨[], false⟩⟩

/-- C6 counterexample: on the single-item path, with remote and local both
failing, the raised message is `"All embedding methods failed: remoteboom"`
— identical for two different local failure causes, so it cannot (and does
not) name the local cause; only the batch path names both. -/
theorem C6_error_counterexample :
    (get_embedding id envRemoteDown stLocalBoomOne "t" none true).result =
      .error "All embedding methods failed: remoteboom" ∧
    (get_embedding id envRemoteDown stLocalBoomTwo "t" none true).result =
      .error "All embedding methods failed: remoteboom" :=
  ⟨rfl, rfl⟩

/-- C6 (amended): when the resolved remote provider fails and the loaded
local fallback also fails, the operation fails terminally with an
"all … methods failed" error; the batch path's message names both the remote
and the local failure causes, but the single-item path's message names only
the primary (remote) cause — the local cause is swallowed. -/
theorem C6_error_contract (md5 : String → String) (env : Env)
    (st : ServiceState) (text : String) (model : Option String)
    (rname : String) (enc : List String → Except String (List Vec))
    (e fe : String) (texts : List String)
    (hres : resolveModel env.settings model = ("openai", rname))
    (hmiss : cm_get_embedding md5 st.cacheAvailable st.store text rname = none)
    (hrem : get_openai_embedding env text rname = .error e)
    (hlm : st.localModel = some enc)
    (hencs : enc [text] = .error fe)
    (hkey : env.settings.openai_api_key.isSome = true)
    (hbig : ¬ texts.length > env.settings.max_batch_size)
    (hne : texts.isEmpty = false)
    (hremb : env.remote rname texts 0 = .error e)
    (hencb : enc texts = .error fe) :
    (get_embedding md5 env st text model true).result =
      .error ("All embedding methods failed: " ++ e) ∧
    (get_batch_embeddings md5 env st texts model false).result =
      .error ("All batch embedding methods failed: " ++ e ++ ", " ++ fe) := by
  constructor
  · have hloc := get_local_of_loaded_err env st text enc fe hlm hencs
    simp [get_embedding, singleCore, truthy, hres, hmiss, hrem, hlm, hloc]
  · simp only [get_batch_embeddings, if_neg hbig, hres]
    simp only [Bool.false_eq_true, if_false]
    simp only [batchCore, hne, Bool.false_eq_true, if_false, hkey, and_true,
      if_pos rfl, hremb]
    simp [batchFallback, load_local_model, hlm, hencb]

/-- Witness for (the amended) C6 with concrete failing providers. -/
theorem C6_error_contract_witness :
    (get_embedding id envRemoteDown stLocalBoomOne "t" none true).result =
      .error ("All embedding methods failed: " ++ "remoteboom") ∧
    (get_batch_embeddings id envRemoteDown stLocalBoomOne ["t"] none false).result =
      .error ("All batch embedding methods failed: " ++ "remoteboom" ++ ", " ++
        "localboom-one") :=
  C6_error_contract id envRemoteDown stLocalBoomOne "t" none
    "text-embedding-3-small" (fun _ => .error "localboom-one") "remoteboom"
    "localboom-one" ["t"] rfl rfl rfl rfl rfl rfl (by decide) rfl rfl rfl

/-! ## Claim C8: batch vs single-item agreement -/

/-- The environment of the C8 counterexample: a deterministic remote
endpoint that succeeds on single-text inputs (returning `[1]` per text) but
fails on larger batches, and a deterministic local model returning `[2]` per
text. -/
def envSizeSensitive : Env :=
  ⟨⟨some "k", "text-embedding-3-small", "all-MiniLM-L6-v2", 100⟩,
   fun _ ts _ => if ts.length = 1 then .ok (ts.map (fun _ => [1]))
                 else .error "batch too large",
   some (fun ts => .ok (ts.map (fun _ => [2])))⟩

/-- A state with the (deterministic) local model already loaded and a
healthy empty cache. -/
def stLoadedLocal : ServiceState :=
  ⟨some (fun ts => .ok (ts.map (fun _ => [2]))), some "all-MiniLM-L6-v2",
   true, ⟨[], false⟩⟩

/-- C8 counterexample: with deterministic providers (each a pure function of
its input; each batch encoding elementwise equal to its single-item
encoding whenever it succeeds), `get_embedding "t"` succeeds remotely with
`[1]`, while `get_batch_embeddings ["t", "u"]` — whose single batched remote
call fails — falls back to the local provider for the *whole* miss subset
and returns `[2]` for `"t"`: the two paths produce different vectors for the
same text under the same resolved model. -/
theorem C8_batch_single_counterexample :
    (get_embedding id envSizeSensitive stLoadedLocal "t" none true).result =
      .ok ([1], "text-embedding-3-small") ∧
    (get_batch_embeddings id envSizeSensitive stLoadedLocal ["t", "u"] none true).result =
      .ok ([some [2], some [2]], "all-MiniLM-L6-v2") ∧
    ([2] : Vec) ≠ [1] := by
  refine ⟨rfl, rfl, by decide⟩

/-- The per-position merge of cached values and freshly computed vectors
that `get_batch_embeddings` realizes: a truthy cache hit keeps its value,
every other position gets the provider's vector for its text. -/
def fillSpec (h : String → Vec) (zs : List (String × Option Vec)) :
    List (Option Vec) :=
  zs.map (fun p =>
    match p.2 with
    | some v => if v.isEmpty then some (h p.1) else some v
    | none => some (h p.1))

theorem scan_shift (zs : List (String × Option Vec)) (i : Nat) :
    scanCache zs (i + 1) =
      ((scanCache zs i).1, (scanCache zs i).2.1.map (· + 1), (scanCache zs i).2.2) := by
  induction zs generalizing i with
  | nil => rfl
  | cons p rest ih =>
    obtain ⟨t, c⟩ := p
    match c with
    | none =>
      show scanCache ((t, none) :: rest) (i + 1) = _
      rw [scanCache, scanCache, ih (i + 1)]
      simp
    | some v =>
      show scanCache ((t, some v) :: rest) (i + 1) = _
      rw [scanCache, scanCache, ih (i + 1)]
      by_cases hv : v.isEmpty <;> simp [hv]

theorem scatter_cons_ge (x : Option Vec) (es : List (Option Vec))
    (ps : List (Nat × Vec)) (h : ∀ p ∈ ps, 1 ≤ p.1) :
    scatterAt (x :: es) ps =
      x :: scatterAt es (ps.map (fun p => (p.1 - 1, p.2))) := by
  induction ps generalizing es with
  | nil => rfl
  | cons p rest ih =>
    obtain ⟨i, v⟩ := p
    obtain ⟨j, rfl⟩ : ∃ j, i = j + 1 := by
      have := h (i, v) (List.mem_cons_self _ _)
      exact ⟨i - 1, by omega⟩
    rw [scatterAt, List.set_cons_succ, List.map_cons]
    rw [ih _ (fun q hq => h q (List.mem_cons_of_mem _ hq))]
    rfl

theorem zip_map_add_one_dec (I : List Nat) (V : List Vec) :
    ((I.map (· + 1)).zip V).map (fun q => (q.1 - 1, q.2)) = I.zip V := by
  rw [List.zip_map_left, List.map_map]
  have hfun : ((fun q : Nat × Vec => (q.1 - 1, q.2)) ∘ Prod.map (· + 1) id) =
      fun q : Nat × Vec => q := by
    funext q
    simp [Prod.map]
  rw [hfun]
  exact List.map_id' (I.zip V)

theorem zip_map_add_one_ge (I : List Nat) (V : List Vec) (q : Nat × Vec)
    (hq : q ∈ (I.map (· + 1)).zip V) : 1 ≤ q.1 := by
  have := (List.of_mem_zip hq).1
  obtain ⟨j, -, hj⟩ := List.mem_map.mp this
  omega

theorem scan_scatter (h : String → Vec) (zs : List (String × Option Vec)) :
    scatterAt (scanCache zs 0).1
      ((scanCache zs 0).2.1.zip ((scanCache zs 0).2.2.map h)) = fillSpec h zs := by
  induction zs with
  | nil => rfl
  | cons p rest ih =>
    obtain ⟨t, c⟩ := p
    match c with
    | none =>
      rw [scanCache, scan_shift rest 0]
      show scatterAt (none :: (scanCache rest 0).1)
        (((0 : Nat) :: ((scanCache rest 0).2.1.map (· + 1))).zip
          ((t :: (scanCache rest 0).2.2).map h)) = _
      rw [List.map_cons, List.zip_cons_cons, scatterAt, List.set_cons_zero]
      rw [scatter_cons_ge _ _ _ (zip_map_add_one_ge _ _), zip_map_add_one_dec, ih]
      rfl
    | some v =>
      rw [scanCache, scan_shift rest 0]
      by_cases hv : v.isEmpty
      · rw [if_pos hv]
        show scatterAt (none :: (scanCache rest 0).1)
          (((0 : Nat) :: ((scanCache rest 0).2.1.map (· + 1))).zip
            ((t :: (scanCache rest 0).2.2).map h)) = _
        rw [List.map_cons, List.zip_cons_cons, scatterAt, List.set_cons_zero]
        rw [scatter_cons_ge _ _ _ (zip_map_add_one_ge _ _), zip_map_add_one_dec, ih]
        show _ = (if v.isEmpty then some (h t) else some v) :: fillSpec h rest
        rw [if_pos hv]
      · rw [if_neg hv]
        show scatterAt (some v :: (scanCache rest 0).1)
          (((scanCache rest 0).2.1.map (· + 1)).zip
            ((scanCache rest 0).2.2.map h)) = _
        rw [scatter_cons_ge _ _ _ (zip_map_add_one_ge _ _), zip_map_add_one_dec, ih]
        show _ = (if v.isEmpty then some (h t) else some v) :: fillSpec h rest
        rw [if_neg hv]

theorem scan_noMiss (h : String → Vec) (zs : List (String × Option Vec))
    (hm : (scanCache zs 0).2.2 = []) : (scanCache zs 0).1 = fillSpec h zs := by
  induction zs with
  | nil => rfl
  | cons p rest ih =>
    obtain ⟨t, c⟩ := p
    match c with
    | none =>
      rw [scanCache, scan_shift rest 0] at hm
      cases hm
    | some v =>
      by_cases hv : v.isEmpty
      · rw [scanCache, scan_shift rest 0, if_pos hv] at hm
        cases hm
      · rw [scanCache, scan_shift rest 0, if_neg hv] at hm ⊢
        show some v :: (scanCache rest 0).1 = _
        rw [ih hm]
        show _ = (if v.isEmpty then some (h t) else some v) :: fillSpec h rest
        rw [if_neg hv]

theorem fillSpec_congr (h1 h2 : String → Vec) (zs : List (String × Option Vec))
    (h : ∀ t, h1 t = h2 t) : fillSpec h1 zs = fillSpec h2 zs := by
  simp only [fillSpec]
  refine List.map_congr_left ?_
  intro p _
  match p with
  | (t, none) => simp [h t]
  | (t, some v) => simp [h t]

theorem load_none_elim (env : Env) (st : ServiceState)
    (h : (load_local_model env st).1.localModel = none) :
    st.localModel = none ∧ env.loadLocal = none ∧
      (load_local_model env st).1 = st := by
  cases hlm : st.localModel with
  | some enc =>
    rw [load_local_model] at h
    simp [hlm] at h
  | none =>
    cases hll : env.loadLocal with
    | some enc =>
      rw [load_local_model] at h
      simp [hlm, hll] at h
    | none =>
      rw [load_local_model]
      simp [hlm, hll]

theorem cm_get_batch_getElem (md5 : String → String) (available : Bool)
    (s : RedisStore) (texts : List String) (mn : String) (i : Nat)
    (text : String) (hi : texts[i]? = some text) :
    (cm_get_batch_embeddings md5 available s texts mn)[i]? =
      some (cm_get_embedding md5 available s text mn) := by
  have hlt : i < texts.length := (List.getElem?_eq_some.mp hi).1
  by_cases hun : available = false ∨ s.failing = true
  · rw [cm_get_batch_unavailable md5 available s texts mn (Or.symm hun)]
    rw [cm_get_embedding_unavailable md5 available s text mn (Or.symm hun)]
    simp [List.getElem?_replicate, hlt]
  · push_neg at hun
    obtain ⟨ha, hf⟩ := hun
    have ha' : available = true := by
      cases available
      · exact absurd rfl ha
      · rfl
    have hf' : s.failing = false := by
      cases hsf : s.failing
      · rfl
      · exact absurd hsf hf
    rw [cm_get_batch_embeddings, if_neg (by simp [ha']), redisMget,
      if_neg (by simp [hf'])]
    rw [cm_get_embedding, if_neg (by simp [ha']), redisGet,
      if_neg (by simp [hf'])]
    rw [List.getElem?_map, List.getElem?_map, hi]
    rfl

theorem singleCore_value (md5 : String → String) (env : Env)
    (st : ServiceState) (text : String) (mtype mn : String) (uc : Bool)
    (tr : List SvcEvent) (f g : String → Vec) (v : Vec) (n1 : String)
    (hrem : ∀ ts a, env.remote mn ts a = .ok (ts.map f))
    (hloc : ∀ e, (load_local_model env st).1.localModel = some e →
      ∀ ts, e ts = .ok (ts.map g))
    (hok : (singleCore md5 env st text mtype mn uc tr).result = .ok (v, n1)) :
    v = if mtype = "openai" ∧ env.settings.openai_api_key.isSome then f text
        else g text := by
  simp only [singleCore] at hok
  by_cases hop : mtype = "openai"
  · simp only [hop, if_pos rfl] at hok ⊢
    rcases hk : env.settings.openai_api_key with - | k
    · have hro : get_openai_embedding env text mn =
          .error "OpenAI API key not configured" := by
        simp [get_openai_embedding, retry3, openaiAttempt, hk]
      rw [hro] at hok
      simp only [hk, Option.isSome_none, Bool.false_eq_true, and_false, if_false]
      cases hlmv : st.localModel with
      | none =>
        rw [hlmv] at hok
        simp at hok
      | some enc =>
        have hload1 : (load_local_model env st).1.localModel = some enc := by
          simp [load_local_model, hlmv]
        have hencv : enc [text] = .ok [g text] := by
          have := hloc enc hload1 [text]
          simpa using this
        have hl := get_local_of_loaded env st text enc (g text) [] hlmv hencv
        rw [hlmv] at hok
        simp only [hl] at hok
        cases uc <;> simp at hok <;> exact hok.1.symm
    · have hro : get_openai_embedding env text mn = .ok (f text) := by
        simp [get_openai_embedding, retry3, openaiAttempt, hk, hrem [text] 0]
      rw [hro] at hok
      simp only [hk, Option.isSome_some, and_true, if_pos rfl]
      cases uc <;> simp at hok <;> exact hok.1.symm
  · simp only [hop, if_false] at hok ⊢
    rcases hl2 : (load_local_model env st).1.localModel with - | enc
    · have hlerr : get_local_embedding env st text =
          (.error "Local model not available", (load_local_model env st).1,
            (load_local_model env st).2) := by
        simp [get_local_embedding, hl2]
      rw [hlerr] at hok
      simp at hok
    · have hencv : enc [text] = .ok [g text] := by
        have := hloc enc hl2 [text]
        simpa using this
      have hlok : get_local_embedding env st text =
          (.ok (g text), (load_local_model env st).1,
            (load_local_model env st).2 ++ [.localEncode]) := by
        simp [get_local_embedding, hl2, hencv]
      rw [hlok] at hok
      cases uc <;> simp at hok <;> exact hok.1.symm

theorem get_embedding_value (md5 : String → String) (env : Env)
    (st : ServiceState) (text : String) (model : Option String) (uc : Bool)
    (mtype mn : String) (f g : String → Vec) (v : Vec) (n1 : String)
    (hres : resolveModel env.settings model = (mtype, mn))
    (hrem : ∀ ts a, env.remote mn ts a = .ok (ts.map f))
    (hloc : ∀ e, (load_local_model env st).1.localModel = some e →
      ∀ ts, e ts = .ok (ts.map g))
    (hok : (get_embedding md5 env st text model uc).result = .ok (v, n1)) :
    v = (match (if uc then
            truthy (cm_get_embedding md5 st.cacheAvailable st.store text mn)
          else none) with
         | some c => c
         | none =>
            if mtype = "openai" ∧ env.settings.openai_api_key.isSome then f text
            else g text) := by
  simp only [get_embedding, hres] at hok
  cases uc with
  | false =>
    simp only [Bool.false_eq_true, if_false] at hok ⊢
    exact singleCore_value md5 env st text mtype mn false _ f g v n1 hrem hloc hok
  | true =>
    simp only [if_pos rfl] at hok ⊢
    rcases hc : truthy (cm_get_embedding md5 st.cacheAvailable st.store text mn)
      with - | c
    · rw [hc] at hok
      exact singleCore_value md5 env st text mtype mn true _ f g v n1 hrem hloc hok
    · rw [hc] at hok
      simp at hok
      exact hok.1.symm

theorem batchCore_value (md5 : String → String) (env : Env) (st : ServiceState)
    (mtype mn : String) (zs : List (String × Option Vec)) (uc : Bool)
    (tr : List SvcEvent) (f g : String → Vec) (vs : List (Option Vec))
    (n2 : String) (E : List (Option Vec)) (I : List Nat) (U : List String)
    (hE : E = (scanCache zs 0).1) (hI : I = (scanCache zs 0).2.1)
    (hU : U = (scanCache zs 0).2.2)
    (hrem : ∀ ts a, env.remote mn ts a = .ok (ts.map f))
    (hloc : ∀ e, (load_local_model env st).1.localModel = some e →
      ∀ ts, e ts = .ok (ts.map g))
    (hok : (batchCore md5 env st mtype mn E I U uc tr).result = .ok (vs, n2)) :
    vs = fillSpec (fun t =>
      if mtype = "openai" ∧ env.settings.openai_api_key.isSome then f t else g t)
      zs := by
  subst hE hI hU
  simp only [batchCore] at hok
  by_cases hemp : (scanCache zs 0).2.2.isEmpty
  · simp only [hemp, if_pos rfl] at hok
    simp at hok
    rw [← hok.1]
    exact scan_noMiss _ zs (List.isEmpty_iff.mp hemp)
  · simp only [hemp, Bool.false_eq_true, if_false] at hok
    by_cases hop : mtype = "openai" ∧ env.settings.openai_api_key.isSome
    · simp only [if_pos hop] at hok
      simp only [hrem] at hok
      have hvs : vs = scatterAt (scanCache zs 0).1
          ((scanCache zs 0).2.1.zip (((scanCache zs 0).2.2).map f)) := by
        split at hok <;> simp at hok <;> exact hok.1.symm
      rw [hvs, scan_scatter f zs]
      refine fillSpec_congr f _ zs ?_
      intro t
      rw [if_pos hop]
    · simp only [if_neg hop] at hok
      rcases hl : (load_local_model env st).1.localModel with - | enc
      · obtain ⟨hstn, hlln, heq⟩ := load_none_elim env st hl
        simp only [hl] at hok
        by_cases hop2 : mtype = "openai"
        · rw [if_pos hop2] at hok
          rw [heq] at hok
          simp [batchFallback, hl] at hok
        · rw [if_neg hop2] at hok
          simp at hok
      · simp only [hl] at hok
        have henc := hloc enc hl (scanCache zs 0).2.2
        simp only [henc] at hok
        have hvs : vs = scatterAt (scanCache zs 0).1
            ((scanCache zs 0).2.1.zip (((scanCache zs 0).2.2).map g)) := by
          split at hok <;> simp at hok <;> exact hok.1.symm
        rw [hvs, scan_scatter g zs]
        refine fillSpec_congr g _ zs ?_
        intro t
        rw [if_neg hop]

theorem get_batch_value (md5 : String → String) (env : Env) (st : ServiceState)
    (texts : List String) (model : Option String) (uc : Bool)
    (mtype mn : String) (f g : String → Vec) (vs : List (Option Vec))
    (n2 : String)
    (hres : resolveModel env.settings model = (mtype, mn))
    (hrem : ∀ ts a, env.remote mn ts a = .ok (ts.map f))
    (hloc : ∀ e, (load_local_model env st).1.localModel = some e →
      ∀ ts, e ts = .ok (ts.map g))
    (hok : (get_batch_embeddings md5 env st texts model uc).result = .ok (vs, n2)) :
    vs = fillSpec (fun t =>
      if mtype = "openai" ∧ env.settings.openai_api_key.isSome then f t else g t)
      (texts.zip (if uc then
        cm_get_batch_embeddings md5 st.cacheAvailable st.store texts mn
      else List.replicate texts.length none)) := by
  by_cases hbig : texts.length > env.settings.max_batch_size
  · simp only [get_batch_embeddings, if_pos hbig] at hok
    simp at hok
  · simp only [get_batch_embeddings, if_neg hbig, hres] at hok
    cases uc with
    | true =>
      simp only [if_pos rfl] at hok ⊢
      exact batchCore_value md5 env st mtype mn
        (texts.zip (cm_get_batch_embeddings md5 st.cacheAvailable st.store texts mn))
        true _ f g vs n2 _ _ _ rfl rfl rfl hrem hloc hok
    | false =>
      simp only [Bool.false_eq_true, if_false] at hok ⊢
      exact batchCore_value md5 env st mtype mn
        (texts.zip (List.replicate texts.length none)) false _ f g vs n2 _ _ _
        (by rw [scan_allMiss]) (by rw [scan_allMiss]) (by rw [scan_allMiss])
        hrem hloc hok

/-- C8 (amended): assuming deterministic, non-failing providers — every
remote call on the resolved model returns one vector per input text, given
by a pure per-text function `f`, and every available local encoder likewise
computes a pure per-text `g` — the single-item path and the batch path
produce the same embedding vector for a shared text `t`: whatever
`get_embedding(t)` returns is exactly what `get_batch_embeddings(texts)`
holds at `t`'s position.  (The original unconditional claim fails only when
a batch-level remote failure reroutes the whole miss subset to the local
provider while the single call succeeds remotely — the counterexample.) -/
theorem C8_batch_single_contract (md5 : String → String) (env : Env)
    (st : ServiceState) (texts : List String) (text : String)
    (model : Option String) (uc : Bool) (i : Nat) (mtype mn : String)
    (f g : String → Vec) (v : Vec) (n1 : String) (vs : List (Option Vec))
    (n2 : String)
    (hres : resolveModel env.settings model = (mtype, mn))
    (hrem : ∀ ts a, env.remote mn ts a = .ok (ts.map f))
    (hloc : ∀ e, (load_local_model env st).1.localModel = some e →
      ∀ ts, e ts = .ok (ts.map g))
    (hi : texts[i]? = some text)
    (h1 : (get_embedding md5 env st text model uc).result = .ok (v, n1))
    (h2 : (get_batch_embeddings md5 env st texts model uc).result = .ok (vs, n2)) :
    vs[i]? = some (some v) := by
  have hv := get_embedding_value md5 env st text model uc mtype mn f g v n1
    hres hrem hloc h1
  have hvs := get_batch_value md5 env st texts model uc mtype mn f g vs n2
    hres hrem hloc h2
  have hci : (if uc then
        cm_get_batch_embeddings md5 st.cacheAvailable st.store texts mn
      else List.replicate texts.length none)[i]? =
      some (if uc then cm_get_embedding md5 st.cacheAvailable st.store text mn
        else none) := by
    cases uc with
    | true =>
      simpa using cm_get_batch_getElem md5 st.cacheAvailable st.store texts mn i
        text hi
    | false =>
      have hlt : i < texts.length := (List.getElem?_eq_some.mp hi).1
      simp [List.getElem?_replicate, hlt]
  have hz : (texts.zip (if uc then
        cm_get_batch_embeddings md5 st.cacheAvailable st.store texts mn
      else List.replicate texts.length none))[i]? =
      some (text, (if uc then
        cm_get_embedding md5 st.cacheAvailable st.store text mn else none)) := by
    rw [List.getElem?_zip_eq_some]
    exact ⟨hi, hci⟩
  have htr : (if uc then
        truthy (cm_get_embedding md5 st.cacheAvailable st.store text mn)
      else none) =
      truthy (if uc then cm_get_embedding md5 st.cacheAvailable st.store text mn
        else none) := by
    cases uc <;> simp [truthy]
  rw [htr] at hv
  rw [hvs, fillSpec, List.getElem?_map, hz]
  rcases hcv : (if uc then
      cm_get_embedding md5 st.cacheAvailable st.store text mn else none)
    with - | c
  · rw [hcv] at hv
    simp only [truthy] at hv
    simp [hv]
  · rw [hcv] at hv
    by_cases hce : c.isEmpty
    · have hce' : c = [] := List.isEmpty_iff.mp hce
      subst hce'
      simp [truthy] at hv
      simp [hv]
    · have hne : c ≠ [] := by
        intro hc
        rw [hc] at hce
        simp at hce
      simp [truthy, hne] at hv
      simp [hv, hne]

/-- The environment of the C8 witness: both providers deterministic and
never failing. -/
def envAllGood : Env :=
  ⟨⟨some "k", "text-embedding-3-small", "all-MiniLM-L6-v2", 100⟩,
   fun _ ts _ => .ok (ts.map (fun _ => [1])),
   some (fun ts => .ok (ts.map (fun _ => [2])))⟩

/-- Witness for (the amended) C8: single and batch agree on `"t"`'s vector. -/
theorem C8_batch_single_contract_witness :
    ([some [1], some [1]] : List (Option Vec))[0]? = some (some ([1] : Vec)) :=
  C8_batch_single_contract id envAllGood freshState ["t", "u"] "t" none true 0
    "openai" "text-embedding-3-small" (fun _ => [1]) (fun _ => [2]) [1]
    "text-embedding-3-small" [some [1], some [1]] "text-embedding-3-small"
    rfl (fun _ _ => rfl)
    (by
      intro e he ts
      have h2 : some (fun ts => Except.ok (List.map (fun _ => ([2] : Vec)) ts)) =
          some e := he
      rw [Option.some_inj] at h2
      rw [← h2])
    rfl rfl rfl
